import Mathlib

/-!
Verification of the connection and event-routing subsystem of the tech_api
messaging backend against its natural-language specification.

The Python sources are shallowly embedded:

* Python `dict`s become association lists (`List (κ × α)`), with `alookup`,
  `aset` (dict assignment: replace in place, append when absent) and `adel`
  (dict deletion) mirroring dict semantics including insertion order.
* Python `set`s become `List`s without the ordering being relied upon;
  `sadd` mirrors `set.add` (no duplicate insertion) and `sdiscard` mirrors
  `set.discard`.
* `datetime` values become natural-number seconds; `utcnow` is passed in as
  an explicit `now` argument.  `timedelta.total_seconds() <= e` for
  timestamps `now`, `t` is modelled as `now - t ≤ e` over `Nat`; the two
  agree because a negative Python difference and the truncated `Nat`
  difference `0` compare identically against a non-negative expiry.
* WebSocket handles become `Conn := Nat`; the transport is abstracted by a
  `sendOk` predicate saying which sends succeed.  A failing send raises in
  Python; every handler is translated with the exact statements that run
  before/after the raise in its `try` blocks.
-/

/-- Lookup in an association list (Python `d[k]` / `d.get(k)`): first match. -/
def alookup [DecidableEq κ] : List (κ × α) → κ → Option α
  | [], _ => none
  | (k, v) :: rest, key => if k = key then some v else alookup rest key

/-- Dict assignment `d[k] = v`: replace the existing binding in place, or
append a new binding at the end (Python dicts are insertion ordered). -/
def aset [DecidableEq κ] : List (κ × α) → κ → α → List (κ × α)
  | [], key, val => [(key, val)]
  | (k, v) :: rest, key, val =>
    if k = key then (k, val) :: rest else (k, v) :: aset rest key val

/-- Dict deletion `del d[k]` / `d.pop(k, None)`. -/
def adel [DecidableEq κ] (m : List (κ × α)) (key : κ) : List (κ × α) :=
  m.filter (fun kv => kv.1 ≠ key)

/-- Python `set.add`. -/
def sadd [DecidableEq α] (l : List α) (x : α) : List α :=
  if x ∈ l then l else l ++ [x]

/-- Python `set.discard`. -/
def sdiscard [DecidableEq α] (l : List α) (x : α) : List α :=
  l.filter (fun y => y ≠ x)

/-- Value of `d.get(k, [])` for a list-valued dict. -/
def dget [DecidableEq κ] (m : List (κ × List α)) (key : κ) : List α :=
  (alookup m key).getD []

/-! ## ConnectionManager (src/websocket/connection_manager.py)

The registry transport.  `Conn` abstracts a `fastapi.WebSocket` handle;
`sendOk : String → Bool` abstracts which users' transports accept a
`send_text` without raising. -/
abbrev Conn := Nat

/-- State of `ConnectionManager.__init__`: the five instance dictionaries. -/
structure CMState where
  active_connections : List (String × Conn)
  chat_participants : List (String × List String)
  user_chats : List (String × List String)
  typing_status : List (String × List String)
  typing_timestamps : List (String × List (String × Nat))
deriving DecidableEq, Repr

/-- Fresh manager: all five dicts empty. -/
def initCM : CMState :=
  { active_connections := [], chat_participants := [], user_chats := [],
    typing_status := [], typing_timestamps := [] }

/-- Participant set of a chat, `chat_participants.get(chat_id, set())`. -/
def partsOf (s : CMState) (chat_id : String) : List String :=
  dget s.chat_participants chat_id

/-- Joined-chat set of a user, `user_chats.get(user_id, set())`. -/
def chatsOf (s : CMState) (user_id : String) : List String :=
  dget s.user_chats user_id

/-- Typing set of a chat, `typing_status.get(chat_id, set())`. -/
def typingOf (s : CMState) (chat_id : String) : List String :=
  dget s.typing_status chat_id

/-- Typing timestamp of a user in a chat, `typing_timestamps[user][chat]`. -/
def tsOf (s : CMState) (user_id chat_id : String) : Option Nat :=
  alookup (dget s.typing_timestamps user_id) chat_id

/-- Embeds `ConnectionManager.connect`: accept and store the connection
(`active_connections[user_id] = websocket`; a duplicate login overwrites the
stored handle, last write wins). -/
def CM_connect (s : CMState) (user_id : String) (websocket : Conn) : CMState :=
  { s with active_connections := aset s.active_connections user_id websocket }

/-- Embeds `ConnectionManager.join_chat`: add the user to `chat_participants[chat]`
and the chat to `user_chats[user]`, creating the sets on demand. -/
def join_chat (s : CMState) (user_id chat_id : String) : CMState :=
  { s with
    chat_participants :=
      aset s.chat_participants chat_id (sadd (partsOf s chat_id) user_id),
    user_chats :=
      aset s.user_chats user_id (sadd (chatsOf s user_id) chat_id) }

/-- Embeds `ConnectionManager.leave_chat`: discard the user from the chat's
participant set, the chat from the user's chat set and the user from the
chat's typing set (deleting a set that becomes empty), and pop the typing
timestamp `typing_timestamps[user][chat]` (deleting the inner dict when it
becomes empty). -/
def leave_chat (s : CMState) (user_id chat_id : String) : CMState :=
  let cp := match alookup s.chat_participants chat_id with
    | none => s.chat_participants
    | some ps =>
      let ps2 := sdiscard ps user_id
      if ps2.isEmpty then adel s.chat_participants chat_id
      else aset s.chat_participants chat_id ps2
  let uc := match alookup s.user_chats user_id with
    | none => s.user_chats
    | some cs =>
      let cs2 := sdiscard cs chat_id
      if cs2.isEmpty then adel s.user_chats user_id
      else aset s.user_chats user_id cs2
  let tst := match alookup s.typing_status chat_id with
    | none => s.typing_status
    | some us =>
      let us2 := sdiscard us user_id
      if us2.isEmpty then adel s.typing_status chat_id
      else aset s.typing_status chat_id us2
  let tts := match alookup s.typing_timestamps user_id with
    | none => s.typing_timestamps
    | some m =>
      let m2 := adel m chat_id
      if m2.isEmpty then adel s.typing_timestamps user_id
      else aset s.typing_timestamps user_id m2
  { active_connections := s.active_connections, chat_participants := cp,
    user_chats := uc, typing_status := tst, typing_timestamps := tts }

/-- Embeds `ConnectionManager.set_typing_status`: when typing, add to
`typing_status[chat]` and record `typing_timestamps[user][chat] = utcnow()`
(the caller passes `now`); when not typing, remove both entries, deleting
containers that become empty. -/
def set_typing_status (s : CMState) (user_id chat_id : String)
    (is_typing : Bool) (now : Nat) : CMState :=
  if is_typing then
    { s with
      typing_status :=
        aset s.typing_status chat_id (sadd (typingOf s chat_id) user_id),
      typing_timestamps :=
        aset s.typing_timestamps user_id
          (aset (dget s.typing_timestamps user_id) chat_id now) }
  else
    let tst := match alookup s.typing_status chat_id with
      | none => s.typing_status
      | some us =>
        let us2 := sdiscard us user_id
        if us2.isEmpty then adel s.typing_status chat_id
        else aset s.typing_status chat_id us2
    let tts := match alookup s.typing_timestamps user_id with
      | none => s.typing_timestamps
      | some m =>
        let m2 := adel m chat_id
        if m2.isEmpty then adel s.typing_timestamps user_id
        else aset s.typing_timestamps user_id m2
    { s with typing_status := tst, typing_timestamps := tts }

/-- Freshness test of `get_typing_users`: the user has a timestamp for the
chat and `(current_time - ts).total_seconds() <= expiry_seconds`. -/
def typingFresh (s : CMState) (chat_id : String) (expiry now : Nat)
    (u : String) : Bool :=
  match tsOf s u chat_id with
  | some t => decide (now - t ≤ expiry)
  | none => false

/-- Staleness test of `get_typing_users`: a timestamp exists and is strictly
older than the expiry window. -/
def typingStale (s : CMState) (chat_id : String) (expiry now : Nat)
    (u : String) : Bool :=
  match tsOf s u chat_id with
  | some t => decide (expiry < now - t)
  | none => false

/-- Embeds `ConnectionManager.get_typing_users`: partition the chat's typing set by
timestamp age against `expiry_seconds` (a user without a recorded timestamp
lands in neither part), clear each expired entry via
`set_typing_status(..., False)`, and return the active users. -/
def get_typing_users (s : CMState) (chat_id : String)
    (expiry_seconds now : Nat) : List String × CMState :=
  match alookup s.typing_status chat_id with
  | none => ([], s)
  | some users =>
    let active := users.filter (typingFresh s chat_id expiry_seconds now)
    let expired := users.filter (typingStale s chat_id expiry_seconds now)
    let s2 := expired.foldl
      (fun st u => set_typing_status st u chat_id false 0) s
    (active, s2)

/-- One iteration of the typing-status cleanup loop in
`ConnectionManager.disconnect` (lines 47-51): discard the user from
`typing_status[chat]`, deleting the set when it empties. -/
def discTypingStep (user_id : String) (st : CMState) (chat_id : String) :
    CMState :=
  match alookup st.typing_status chat_id with
  | none => st
  | some us =>
    let us2 := sdiscard us user_id
    if us2.isEmpty then { st with typing_status := adel st.typing_status chat_id }
    else { st with typing_status := aset st.typing_status chat_id us2 }

/-- Typing-status cleanup of `ConnectionManager.disconnect` (lines 45-53):
when the user has typing timestamps, discard the user from the typing set
of every chat recorded there, then delete `typing_timestamps[user]`. -/
def discTypingPhase (user_id : String) (s2 : CMState) : CMState :=
  match alookup s2.typing_timestamps user_id with
  | none => s2
  | some m =>
    let s3 := m.foldl (fun st p => discTypingStep user_id st p.1) s2
    { s3 with typing_timestamps := adel s3.typing_timestamps user_id }

/-- Embeds `ConnectionManager.disconnect`: delete the connection, run `leave_chat`
for every chat in a snapshot of `user_chats[user]`, then run the
typing-status cleanup. -/
def CM_disconnect (s : CMState) (user_id : String) : CMState :=
  let s1 : CMState :=
    { s with active_connections := adel s.active_connections user_id }
  let chats := chatsOf s1 user_id
  let s2 := chats.foldl (fun st c => leave_chat st user_id c) s1
  discTypingPhase user_id s2

/-- Embeds `ConnectionManager.send_personal_message`: no stored connection means
`False` without side effects; a transport failure (`sendOk` is false)
triggers `disconnect` of the target and returns `False`; otherwise the
frame is written and the call returns `True`. -/
def send_personal_message (sendOk : String → Bool) (s : CMState)
    (user_id : String) : Bool × CMState :=
  match alookup s.active_connections user_id with
  | none => (false, s)
  | some _ => if sendOk user_id then (true, s) else (false, CM_disconnect s user_id)

/-- Fan-out loop of `broadcast_to_chat`: send to each snapshot participant
in order, collecting the users whose send returned `False`
(`disconnected_users`) and, as the observable transport effect, the users
to whom the payload was actually written. -/
def bcastLoop (sendOk : String → Bool) :
    List String → CMState → CMState × List String × List String
  | [], s => (s, [], [])
  | u :: rest, s =>
    let r := send_personal_message sendOk s u
    let rec2 := bcastLoop sendOk rest r.2
    (rec2.1,
     if r.1 then rec2.2.1 else u :: rec2.2.1,
     if r.1 then u :: rec2.2.2 else rec2.2.2)

/-- Recipient snapshot of `broadcast_to_chat`:
`chat_participants.get(chat_id, set()).copy()` minus the excluded user
(Python skips the discard when `exclude_user` is falsy, so an empty-string
exclusion excludes nobody). -/
def broadcastTargets (s : CMState) (chat_id : String)
    (exclude_user : Option String) : List String :=
  let participants := partsOf s chat_id
  match exclude_user with
  | some e => if e = "" then participants else sdiscard participants e
  | none => participants

/-- Embeds `ConnectionManager.broadcast_to_chat`.  The first component is the
Python return value, which is `None` on every path (the function has no
`return <value>` statement); the second is the list of users the payload
was delivered to; the third is the final state after the
`disconnected_users` are additionally removed from the chat via
`leave_chat`. -/
def broadcast_to_chat (sendOk : String → Bool) (s : CMState) (chat_id : String)
    (exclude_user : Option String) : Option Nat × List String × CMState :=
  let participants := broadcastTargets s chat_id exclude_user
  if participants.isEmpty then (none, [], s)
  else
    let r := bcastLoop sendOk participants s
    let s2 := r.2.1.foldl (fun st u => leave_chat st u chat_id) r.1
    (none, r.2.2, s2)

/-- Mutual consistency of the forward index `chat_participants` and the
inverse index `user_chats`. -/
def InvCM (s : CMState) : Prop :=
  ∀ u c, u ∈ partsOf s c ↔ c ∈ chatsOf s u

/-- Registry mutations quantified over by claim C1: `join_chat`,
`leave_chat` and `disconnect` on the shared `ConnectionManager`. -/
inductive RegOp
  | opJoin (user_id chat_id : String)
  | opLeave (user_id chat_id : String)
  | opDisconnect (user_id : String)

def applyRegOp (s : CMState) : RegOp → CMState
  | .opJoin u c => join_chat s u c
  | .opLeave u c => leave_chat s u c
  | .opDisconnect u => CM_disconnect s u

/-- Run a sequence of registry operations from a fresh manager. -/
def runReg (ops : List RegOp) : CMState :=
  ops.foldl applyRegOp initCM

/-! ## Legacy transport (src/websocket/websocket.py)

Module-level state of the simple broadcast handler.  `Conn` numbers the
`WebSocket` objects.  JWT decoding is abstracted: a token is represented by
its verification result, so `verify_token` (auth/dependencies.py, the
active definition returning `payload.get("sub")`) becomes the identity on
`Option String`.  Sends are abstracted by `sendOk : Conn → Bool`; a send to
a connection with `sendOk = false` raises in Python, and each embedding
reproduces exactly the statements executed before and after that raise. -/
/-- One `message_tracking[message_id]` record (websocket.py lines 105-115).
The `message_data` payload itself is not carried: no verified claim reads
it back, and its `timestamp` entry always equals the `timestamp` field. -/
structure MsgInfo where
  sender_ws : Conn
  sender_id : String
  receiver_id : Option String
  status : String
  timestamp : Nat
  recipients : List Conn
  delivered_to : List Conn
  read_by : List Conn
deriving DecidableEq, Repr

/-- Module-level dictionaries and sets of websocket.py (lines 15-25). -/
structure WSState where
  connected_clients : List Conn
  authenticated_users : List (Conn × String)
  user_connections : List (String × Conn)
  message_tracking : List (String × MsgInfo)
  user_last_read_time : List (Conn × Nat)
  typing_users : List (String × List String)
  user_typing_in : List (String × String)
deriving DecidableEq, Repr

/-- Fresh module state: every container empty. -/
def initWS : WSState :=
  { connected_clients := [], authenticated_users := [], user_connections := [],
    message_tracking := [], user_last_read_time := [], typing_users := [],
    user_typing_in := [] }

/-- Embeds `verify_token` of auth/dependencies.py, with JWT decoding abstracted:
an invalid or expired token is `none`, a valid token is `some` of its
subject claim (`payload.get("sub")`, which itself may be an empty string). -/
def verify_token (token : Option String) : Option String := token

/-- Embeds `websocket_handler` accepting a connection: `connected_clients.add`. -/
def ws_accept (s : WSState) (ws : Conn) : WSState :=
  { s with connected_clients := sadd s.connected_clients ws }

/-- Embeds `handle_login`: on a token whose subject is truthy, record the
connection in both `authenticated_users` and `user_connections` and report
success; otherwise reply 403 and report failure (the caller then breaks). -/
def handle_login (s : WSState) (ws : Conn) (token : Option String) :
    WSState × Bool :=
  match verify_token token with
  | some uid =>
    if uid = "" then (s, false)
    else
      ({ s with
          authenticated_users := aset s.authenticated_users ws uid,
          user_connections := aset s.user_connections uid ws }, true)
  | none => (s, false)

/-- Update one tracked message in place, as Python mutates the
`message_tracking[mid]` dict through an alias. -/
def updTracking (s : WSState) (mid : String) (f : MsgInfo → MsgInfo) :
    WSState :=
  match alookup s.message_tracking mid with
  | none => s
  | some i =>
    { s with message_tracking := aset s.message_tracking mid (f i) }

/-- Embeds `auto_check_read_status`: when the recipient has a last-read watermark
at or after the message timestamp, is authenticated with a truthy id and
has not read the message yet, add it to `read_by` (the read-receipt send to
the sender that follows is inside the same `try` and cannot undo this). -/
def auto_check_read_status (s : WSState) (recipient_ws : Conn) (mid : String)
    (msg_ts : Nat) : WSState :=
  match alookup s.user_last_read_time recipient_ws with
  | none => s
  | some last_read =>
    match alookup s.message_tracking mid with
    | none => s
    | some info =>
      match alookup s.authenticated_users recipient_ws with
      | none => s
      | some rid =>
        if rid = "" then s
        else if recipient_ws ∈ info.read_by then s
        else if msg_ts ≤ last_read then
          let info2 := { info with read_by := sadd info.read_by recipient_ws }
          { s with message_tracking := aset s.message_tracking mid info2 }
        else s

/-- Embeds `deliver_to_user`: direct delivery.  An offline receiver leaves the
record untouched (status stays `sent`).  A successful send appends the
receiver to `recipients` and `delivered_to` and sets status `delivered`;
if the delivery send raises, the `except` swallows it before any mutation;
if the later sender notification raises, the mutations stand but the
auto-read check is skipped.  The `none` tracking branch is a Python
`KeyError`: `deliver_to_user` is only invoked by `handle_send_chat`
immediately after it creates the record. -/
def deliver_to_user (sendOk : Conn → Bool) (s : WSState) (mid : String)
    (receiver_id : String) : WSState :=
  match alookup s.message_tracking mid with
  | none => s
  | some info =>
    match alookup s.user_connections receiver_id with
    | none => s
    | some rws =>
      if sendOk rws then
        let info2 := { info with
          recipients := sadd info.recipients rws,
          delivered_to := sadd info.delivered_to rws,
          status := "delivered" }
        let s1 := { s with message_tracking := aset s.message_tracking mid info2 }
        if sendOk info.sender_ws then
          auto_check_read_status s1 rws mid info.timestamp
        else s1
      else s

/-- Fan-out loop of `broadcast_message` over `connected_clients`.  A send
failure is caught, the client discarded from `connected_clients`, and the
next iteration of the `for` over the now-mutated set raises `RuntimeError`
(set changed size during iteration), so the loop stops there and the
returned flag records that the exception escaped.  Successful sends append
the client to `recipients` and run the auto-read check. -/
def bmLoop (sendOk : Conn → Bool) (sender_ws : Conn) (mid : String)
    (msg_ts : Nat) : List Conn → WSState → Nat → WSState × Nat × Bool
  | [], s, cnt => (s, cnt, true)
  | c :: rest, s, cnt =>
    if c ≠ sender_ws ∧ (alookup s.authenticated_users c).isSome then
      if sendOk c then
        let s1 := updTracking s mid
          (fun i => { i with recipients := sadd i.recipients c })
        let s2 := auto_check_read_status s1 c mid msg_ts
        bmLoop sendOk sender_ws mid msg_ts rest s2 (cnt + 1)
      else
        ({ s with connected_clients := sdiscard s.connected_clients c },
         cnt, false)
    else bmLoop sendOk sender_ws mid msg_ts rest s cnt

/-- Embeds `broadcast_message`: fan-out to every authenticated client except the
sender; when the loop completes and reached at least one recipient, set the
record status to `delivered` before notifying the sender.  The `none`
branch is a Python `KeyError` (see `deliver_to_user`). -/
def broadcast_message (sendOk : Conn → Bool) (s : WSState) (sender_ws : Conn)
    (mid : String) : WSState :=
  match alookup s.message_tracking mid with
  | none => s
  | some info =>
    let r := bmLoop sendOk sender_ws mid info.timestamp s.connected_clients s 0
    if r.2.2 ∧ 0 < r.2.1 then
      updTracking r.1 mid (fun i => { i with status := "delivered" })
    else r.1

/-- Embeds `handle_send_chat`: authenticated senders with a truthy message id get
a tracking record with status `sent`; then the message is delivered
directly when a truthy `receiver_id` is present, otherwise broadcast.  If
the `message_sent` acknowledgment send raises, the record remains and
delivery is skipped. -/
def handle_send_chat (sendOk : Conn → Bool) (s : WSState) (ws : Conn)
    (mid : Option String) (receiver : Option String) (msg_ts : Nat) :
    WSState :=
  match alookup s.authenticated_users ws with
  | none => s
  | some sender_id =>
    match mid with
    | none => s
    | some m =>
      if m = "" then s
      else
        let info0 : MsgInfo :=
          { sender_ws := ws, sender_id := sender_id, receiver_id := receiver,
            status := "sent", timestamp := msg_ts, recipients := [],
            delivered_to := [], read_by := [] }
        let s1 := { s with message_tracking := aset s.message_tracking m info0 }
        if sendOk ws then
          match receiver with
          | some r =>
            if r = "" then broadcast_message sendOk s1 ws m
            else deliver_to_user sendOk s1 m r
          | none => broadcast_message sendOk s1 ws m
        else s1

/-- Outbound frames of `handle_message_read`, reduced to the fields the
claims inspect. -/
inductive WSReply
  | errReply (status : Nat) (msg : String)
  | readConfirmed (mid : String)
  | senderRead (mid : String) (reader : String)
deriving DecidableEq, Repr

/-- Embeds `handle_message_read`: 401 when unauthenticated, 404 on a falsy or
untracked id, 403 without any mutation when the caller is the original
sender connection, and otherwise adds the caller to `read_by`, confirms to
the reader and notifies a still-connected sender. -/
def handle_message_read (s : WSState) (ws : Conn) (mid : Option String) :
    WSState × List (Conn × WSReply) :=
  match alookup s.authenticated_users ws with
  | none => (s, [(ws, .errReply 401 "Not authenticated")])
  | some reader_id =>
    match mid with
    | none => (s, [(ws, .errReply 404 "Message not found")])
    | some m =>
      if m = "" then (s, [(ws, .errReply 404 "Message not found")])
      else
        match alookup s.message_tracking m with
        | none => (s, [(ws, .errReply 404 "Message not found")])
        | some info =>
          if ws = info.sender_ws then
            (s, [(ws, .errReply 403 "Cannot mark own message as read")])
          else
            let info2 := { info with read_by := sadd info.read_by ws }
            ({ s with message_tracking := aset s.message_tracking m info2 },
             (ws, .readConfirmed m) ::
               (if info.sender_ws ∈ s.connected_clients then
                 [(info.sender_ws, .senderRead m reader_id)] else []))

/-- Per-record body of the bulk auto-read sweep: add the caller to
`read_by` when it received but has not read the message, did not send it,
and the message timestamp is at or before the watermark. -/
def autoReadUpd (ws : Conn) (last_read : Nat) (i : MsgInfo) : MsgInfo :=
  if ws ≠ i.sender_ws ∧ ws ∉ i.read_by ∧ ws ∈ i.recipients ∧
      i.timestamp ≤ last_read then
    { i with read_by := sadd i.read_by ws }
  else i

/-- Embeds `check_all_messages_for_auto_read`: one pass over `message_tracking`,
applying `autoReadUpd` to every record. -/
def check_all_messages_for_auto_read (s : WSState) (ws : Conn)
    (last_read : Nat) : WSState :=
  match alookup s.authenticated_users ws with
  | none => s
  | some rid =>
    if rid = "" then s
    else
      { s with message_tracking :=
          s.message_tracking.map (fun p => (p.1, autoReadUpd ws last_read p.2)) }

/-- Embeds `handle_update_last_read_time`: authenticated callers with a truthy
watermark store it and trigger the bulk auto-read sweep (`0` plays the
falsy timestamp, as `""` does for the ISO string in Python). -/
def handle_update_last_read_time (s : WSState) (ws : Conn)
    (last_message_time : Option Nat) : WSState :=
  match alookup s.authenticated_users ws with
  | none => s
  | some _ =>
    match last_message_time with
    | none => s
    | some t =>
      if t = 0 then s
      else
        let s1 := { s with user_last_read_time := aset s.user_last_read_time ws t }
        check_all_messages_for_auto_read s1 ws t

/-- Embeds `broadcast_typing_event`: send the typing frame to every authenticated
client other than the typing user; failed clients are collected and then
discarded from `connected_clients`.  Returns the state and the clients the
frame reached. -/
def broadcast_typing_event (sendOk : Conn → Bool) (s : WSState)
    (_chat_id typing_user_id _event_name : String) : WSState × List Conn :=
  let targets := s.connected_clients.filter (fun w =>
    match alookup s.authenticated_users w with
    | some uid => decide (uid ≠ typing_user_id)
    | none => false)
  let failed := targets.filter (fun w => !(sendOk w))
  ({ s with connected_clients :=
      s.connected_clients.filter (fun w => decide (w ∉ failed)) },
   targets.filter sendOk)

/-- Embeds `handle_typing_start`: add the user to `typing_users[chat]` and point
`user_typing_in[user]` at the chat — without removing the user from the
typing set of any chat recorded there before.  If the acknowledgment send
raises, the mutation stands and the broadcast is skipped. -/
def handle_typing_start (sendOk : Conn → Bool) (s : WSState) (ws : Conn)
    (chat_id : Option String) : WSState :=
  match alookup s.authenticated_users ws with
  | none => s
  | some uid =>
    match chat_id with
    | none => s
    | some c =>
      if c = "" then s
      else
        let s1 := { s with
          typing_users := aset s.typing_users c (sadd (dget s.typing_users c) uid),
          user_typing_in := aset s.user_typing_in uid c }
        if sendOk ws then
          (broadcast_typing_event sendOk s1 c uid "typing_start").1
        else s1

/-- Embeds `handle_typing_stop`: discard the user from `typing_users[chat]`
(deleting an emptied set) and clear `user_typing_in[user]` only when it
points at this same chat. -/
def handle_typing_stop (sendOk : Conn → Bool) (s : WSState) (ws : Conn)
    (chat_id : Option String) : WSState :=
  match alookup s.authenticated_users ws with
  | none => s
  | some uid =>
    match chat_id with
    | none => s
    | some c =>
      if c = "" then s
      else
        let s1 :=
          match alookup s.typing_users c with
          | none => s
          | some tus =>
            let tus2 := sdiscard tus uid
            if tus2.isEmpty then { s with typing_users := adel s.typing_users c }
            else { s with typing_users := aset s.typing_users c tus2 }
        let s2 :=
          if alookup s1.user_typing_in uid = some c then
            { s1 with user_typing_in := adel s1.user_typing_in uid }
          else s1
        if sendOk ws then
          (broadcast_typing_event sendOk s2 c uid "typing_stop").1
        else s2

/-- Per-record scrub in `cleanup_connection`: remove the closing socket
from the recipient, delivered and read sets of a tracked message. -/
def scrubConn (ws : Conn) (i : MsgInfo) : MsgInfo :=
  { i with
    recipients := sdiscard i.recipients ws,
    delivered_to := sdiscard i.delivered_to ws,
    read_by := sdiscard i.read_by ws }

/-- Embeds `cleanup_connection`: discard the socket from `connected_clients`; if
it was authenticated, drop both user maps and clear the typing state of
the single chat named by `user_typing_in[user]` (broadcasting a stop);
finally drop the last-read watermark and scrub the socket from every
tracked message's recipient, delivered and read sets. -/
def cleanup_connection (sendOk : Conn → Bool) (s : WSState) (ws : Conn) :
    WSState :=
  let s1 := { s with connected_clients := sdiscard s.connected_clients ws }
  let s2 :=
    match alookup s1.authenticated_users ws with
    | none => s1
    | some uid =>
      let sa := { s1 with
        user_connections := adel s1.user_connections uid,
        authenticated_users := adel s1.authenticated_users ws }
      match alookup sa.user_typing_in uid with
      | none => sa
      | some chat =>
        let sb :=
          match alookup sa.typing_users chat with
          | none => sa
          | some tus =>
            let tus2 := sdiscard tus uid
            if tus2.isEmpty then
              { sa with typing_users := adel sa.typing_users chat }
            else { sa with typing_users := aset sa.typing_users chat tus2 }
        let sc := { sb with user_typing_in := adel sb.user_typing_in uid }
        (broadcast_typing_event sendOk sc chat uid "typing_stop").1
  let s3 := { s2 with user_last_read_time := adel s2.user_last_read_time ws }
  { s3 with message_tracking :=
      s3.message_tracking.map (fun p => (p.1, scrubConn ws p.2)) }

/-! ## Delivery-status machinery (claim C6) -/
/-- Status string of a tracked message, `message_tracking[mid]["status"]`. -/
def statusOf (s : WSState) (mid : String) : Option String :=
  (alookup s.message_tracking mid).map MsgInfo.status

/-- Rank of a delivery status along the sent, delivered, read progression. -/
def statusRank : Option String → Nat
  | none => 0
  | some st =>
    if st = "sent" then 1
    else if st = "delivered" then 2
    else if st = "read" then 3
    else 0

/-- Every tracked record carries status `sent` or `delivered` — the only
two strings the source ever assigns (`handle_send_chat` initialises `sent`;
`deliver_to_user` and `broadcast_message` write `delivered`). -/
def GoodStatuses (s : WSState) : Prop :=
  ∀ p ∈ s.message_tracking, p.2.status = "sent" ∨ p.2.status = "delivered"

instance (s : WSState) : Decidable (GoodStatuses s) := by
  unfold GoodStatuses
  infer_instance

/-- The delivery and read operations of claim C6: direct delivery,
broadcast delivery, manual read, watermark update with its bulk auto-read
sweep, and connection cleanup. -/
inductive DROp
  | opDeliver (sendOk : Conn → Bool) (mid receiver_id : String)
  | opBroadcast (sendOk : Conn → Bool) (sender_ws : Conn) (mid : String)
  | opMsgRead (ws : Conn) (mid : Option String)
  | opUpdLastRead (ws : Conn) (t : Option Nat)
  | opCleanup (sendOk : Conn → Bool) (ws : Conn)

def applyDR (s : WSState) : DROp → WSState
  | .opDeliver sendOk mid r => deliver_to_user sendOk s mid r
  | .opBroadcast sendOk sw mid => broadcast_message sendOk s sw mid
  | .opMsgRead ws mid => (handle_message_read s ws mid).1
  | .opUpdLastRead ws t => handle_update_last_read_time s ws t
  | .opCleanup sendOk ws => cleanup_connection sendOk s ws

def runDR (ops : List DROp) (s : WSState) : WSState :=
  ops.foldl applyDR s

/-! ## Event codec (websocket.py parse_event, websocket_routes.py
parse_event_with_suffix)

Frames are UTF-8 strings; JSON decoding is kept abstract as a parameter so
that theorems about the suffix check hold for every possible parser — in
particular, a result independent of the parser witnesses that the parser
is never consulted. -/
/-- The fixed literal framing suffix (both modules define it). -/
def SUFFIX : String := "aabb"

/-- Python `str.endswith`. -/
def str_endswith (s suffix : String) : Bool :=
  suffix.data.isSuffixOf s.data

/-- Python `raw[:-n]`. -/
def strDropRight (s : String) (n : Nat) : String :=
  ⟨s.data.take (s.data.length - n)⟩

/-- Outcomes of the legacy `parse_event`: the parsed event, or one of the
two structured errors, each naming the received text. -/
inductive ParseOutcome (ε : Type)
  | ok (event : ε)
  | invalidSuffix (received : String)
  | malformedJson (received : String)
deriving DecidableEq, Repr

/-- Embeds `parse_event` (websocket.py): reject with status 400 `Invalid suffix`
when the raw text does not end with `SUFFIX`; otherwise strip the suffix
and attempt JSON decoding, rejecting with `Malformed JSON` on failure. -/
def parse_event (jsonDecode : String → Option ε) (raw : String) :
    ParseOutcome ε :=
  if str_endswith raw SUFFIX then
    match jsonDecode (strDropRight raw SUFFIX.length) with
    | some ev => .ok ev
    | none => .malformedJson raw
  else .invalidSuffix raw

/-- Outcomes of `parse_event_with_suffix`, carrying the error code that the
route layer attaches (INVALID_FORMAT, INVALID_JSON, INVALID_STRUCTURE). -/
inductive RouteParseOutcome (ε : Type)
  | ok (event : ε)
  | invalidFormat (received : String)
  | invalidJson (received : String)
  | invalidStructure (received : String)
deriving DecidableEq, Repr

/-- Embeds `parse_event_with_suffix` (websocket_routes.py): the same suffix gate
first (code INVALID_FORMAT), then JSON decoding (INVALID_JSON on failure),
then structural validation — the document must be a dict with an
`event_name` field (INVALID_STRUCTURE otherwise) and a missing `event_data`
defaults to an empty dict (`withDefaultData`). -/
def parse_event_with_suffix (jsonDecode : String → Option ε)
    (isDict : ε → Bool) (hasEventName : ε → Bool) (withDefaultData : ε → ε)
    (raw : String) : RouteParseOutcome ε :=
  if str_endswith raw SUFFIX then
    match jsonDecode (strDropRight raw SUFFIX.length) with
    | none => .invalidJson raw
    | some d =>
      if !(isDict d) then .invalidStructure raw
      else if !(hasEventName d) then .invalidStructure raw
      else .ok (withDefaultData d)
  else .invalidFormat raw

/-! ## Permission validation (src/services/websocket_service.py)

`WebSocketService.validate_user_permissions`.  A decoded JWT payload is a
`TokenPayload` (`none` fields stand for absent claims); a token is `none`
when signature verification fails.  The Python dict payload is reduced to
the three claims the function reads. -/
structure TokenPayload where
  sub : Option String
  role : Option String
  permissions : Option (List String)
deriving DecidableEq, Repr

/-- The `{}` returned by the `except` handler of
`validate_user_permissions`. -/
def emptyPayload : TokenPayload :=
  { sub := none, role := none, permissions := none }

/-- The active `verify_token` of auth/dependencies.py applied to a decoded
payload: it returns only `payload.get("sub")`, not the payload. -/
def verify_token_active (token : Option TokenPayload) : Option String :=
  match token with
  | none => none
  | some p => p.sub

/-- Result of running a Python statement sequence: a value, or an escaped
exception. -/
inductive PyEval (α : Type)
  | ok (val : α)
  | raised (exc : String)
deriving DecidableEq, Repr

/-- Body of `validate_user_permissions` as the interpreter executes it.
websocket_service.py never imports `verify_token` — the import on its line
7 is commented out — so the very first statement of the `try` block raises
`NameError` before any of the permission logic can run. -/
def validate_user_permissions_body (token : Option TokenPayload)
    (required_permissions : Option (List String)) :
    PyEval (Bool × TokenPayload) :=
  PyEval.raised "NameError: name verify_token is not defined"

/-- Embeds `validate_user_permissions`: the `try` body raises on its first
statement and the blanket `except` returns `(False, ... )` for every input. -/
def validate_user_permissions (token : Option TokenPayload)
    (required_permissions : Option (List String)) : Bool × TokenPayload :=
  match validate_user_permissions_body token required_permissions with
  | .ok r => r
  | .raised _ => (false, emptyPayload)

/-- The body as it would execute if the `verify_token` import existed: the
active `verify_token` returns only the subject string, so for every token
with a truthy subject the attribute access `token_payload.get(...)` on a
`str` raises `AttributeError`, and the handler again yields `(False, ...)`. -/
def validate_user_permissions_body_with_import (token : Option TokenPayload)
    (required_permissions : Option (List String)) :
    PyEval (Bool × TokenPayload) :=
  match verify_token_active token with
  | none => .ok (false, emptyPayload)
  | some sub =>
    if sub = "" then .ok (false, emptyPayload)
    else .raised "AttributeError: str object has no attribute get"

def validate_user_permissions_with_import (token : Option TokenPayload)
    (required_permissions : Option (List String)) : Bool × TokenPayload :=
  match validate_user_permissions_body_with_import token required_permissions with
  | .ok r => r
  | .raised _ => (false, emptyPayload)

/-- Modelled from the spec and from the commented-out payload-returning
`verify_token` in auth/dependencies.py: the permission logic of lines
128-137 of websocket_service.py as it was evidently meant to run, with
`token_payload` the full decoded payload.  A user with role `admin`
bypasses the capability check; otherwise every required capability string
must appear in the payload's permission list; an empty or absent
requirement list is vacuously satisfied. -/
def validate_user_permissions_intended (token : Option TokenPayload)
    (required_permissions : Option (List String)) : Bool × TokenPayload :=
  match token with
  | none => (false, emptyPayload)
  | some payload =>
    let user_permissions := payload.permissions.getD []
    let user_role := payload.role.getD "user"
    match required_permissions with
    | none => (true, payload)
    | some reqs =>
      if reqs.isEmpty then (true, payload)
      else
        let has_permissions := reqs.all (fun perm => perm ∈ user_permissions)
        if !has_permissions ∧ user_role ≠ "admin" then (false, payload)
        else (true, payload)

/-- Registry state for the C4 counterexample and witness: `alice` and `bob`
are connected and joined to chat `room`, and sends to `bob` fail. -/
def stC4 : CMState :=
  { active_connections := [("alice", 1), ("bob", 2)],
    chat_participants := [("room", ["alice", "bob"])],
    user_chats := [("alice", ["room"]), ("bob", ["room"])],
    typing_status := [], typing_timestamps := [] }

/-- State for the C7 witness: in chat `c`, `u1` started typing at time 8
and `u2` at time 2; the call happens at time 10 with a 5-second window. -/
def stC7 : CMState :=
  { active_connections := [], chat_participants := [], user_chats := [],
    typing_status := [("c", ["u1", "u2"])],
    typing_timestamps := [("u1", [("c", 8)]), ("u2", [("c", 2)])] }

/-- Legacy state for the C5 witness: socket 1 is authenticated as `alice`
and is the sender connection of tracked message `m1`. -/
def stC5 : WSState :=
  { connected_clients := [1],
    authenticated_users := [(1, "alice")],
    user_connections := [("alice", 1)],
    message_tracking := [("m1",
      { sender_ws := 1, sender_id := "alice", receiver_id := some "bob",
        status := "sent", timestamp := 5, recipients := [],
        delivered_to := [], read_by := [] })],
    user_last_read_time := [], typing_users := [], user_typing_in := [] }

/-- Legacy state for the C6 witness: `a` on socket 1 has sent tracked
message `m` (status `sent`) addressed to `b` on socket 2, whose last-read
watermark is already past the message timestamp. -/
def stC6 : WSState :=
  { connected_clients := [1, 2],
    authenticated_users := [(1, "a"), (2, "b")],
    user_connections := [("a", 1), ("b", 2)],
    message_tracking := [("m",
      { sender_ws := 1, sender_id := "a", receiver_id := some "b",
        status := "sent", timestamp := 5, recipients := [],
        delivered_to := [], read_by := [] })],
    user_last_read_time := [(2, 10)], typing_users := [], user_typing_in := [] }

/-- The record tracked for `m` after the direct delivery to `b` at `stC6`:
delivered and auto-read by socket 2. -/
def stC6delivered : MsgInfo :=
  { sender_ws := 1, sender_id := "a", receiver_id := some "b",
    status := "delivered", timestamp := 5, recipients := [2],
    delivered_to := [2], read_by := [2] }

/-- Legacy scenario for C2: socket 7 connects, logs in as `udo`, sends
`typing_start` for chat `A` and then for chat `B`, and finally the
connection is torn down by `cleanup_connection`. -/
def stC2 : WSState :=
  cleanup_connection (fun _ => true)
    (handle_typing_start (fun _ => true)
      (handle_typing_start (fun _ => true)
        ((handle_login (ws_accept initWS 7) 7 (some "udo")).1) 7 (some "A"))
      7 (some "B"))
    7

/-- Legacy scenario for C9: socket 3 logs in as `uma` and sends
`typing_start` for `roomA` and then for `roomB`, with no stop between. -/
def stC9 : WSState :=
  handle_typing_start (fun _ => true)
    (handle_typing_start (fun _ => true)
      ((handle_login (ws_accept initWS 3) 3 (some "uma")).1) 3 (some "roomA"))
    3 (some "roomB")

/-- Admin payload for the C3 evaluation. -/
def adminPayload : TokenPayload :=
  { sub := some "u1", role := some "admin", permissions := some [] }

/-- Registry state for the C10 witness: `u1` connected as socket 41,
joined chat `c7`, then a duplicate login replaced the stored socket
with 42. -/
def stC10reg : CMState :=
  CM_connect (join_chat (CM_connect initCM "u1" 41) "u1" "c7") "u1" 42

/-- Legacy state for the C10 witness: sockets 11 and 12 both log in as
`dup`; `user_connections` ends up pointing at the newer socket 12. -/
def stC10ws : WSState :=
  (handle_login
    ((handle_login (ws_accept (ws_accept initWS 11) 12) 11 (some "dup")).1)
    12 (some "dup")).1

theorem alookup_aset [DecidableEq κ] (m : List (κ × α)) (k k' : κ) (v : α) :
    alookup (aset m k v) k' = if k' = k then some v else alookup m k' := by
  induction m with
  | nil =>
    rcases eq_or_ne k' k with h | h
    · simp [aset, alookup, h]
    · simp [aset, alookup, h, h.symm]
  | cons hd tl ih =>
    obtain ⟨hk, hv⟩ := hd
    rcases eq_or_ne hk k with h1 | h1
    · rcases eq_or_ne k' k with h2 | h2
      · simp [aset, alookup, h1, h2]
      · simp [aset, alookup, h1, h2, h2.symm]
    · rcases eq_or_ne hk k' with h2 | h2
      · simp [aset, alookup, h1, h2, h2 ▸ h1]
      · simp [aset, alookup, h1, h2, ih]

theorem alookup_adel [DecidableEq κ] (m : List (κ × α)) (k k' : κ) :
    alookup (adel m k) k' = if k' = k then none else alookup m k' := by
  induction m with
  | nil =>
    rcases eq_or_ne k' k with h | h <;> simp [adel, alookup, h]
  | cons hd tl ih =>
    obtain ⟨hk, hv⟩ := hd
    rcases eq_or_ne hk k with h1 | h1
    · have hfc : adel ((hk, hv) :: tl) k = adel tl k := by simp [adel, h1]
      rw [hfc, ih]
      rcases eq_or_ne k' k with h2 | h2
      · simp [h2]
      · simp [alookup, h1, h2, h2.symm]
    · have hfc : adel ((hk, hv) :: tl) k = (hk, hv) :: adel tl k := by simp [adel, h1]
      rw [hfc]
      rcases eq_or_ne hk k' with h2 | h2
      · simp [alookup, h2, (h2 ▸ h1 : k' ≠ k)]
      · simp [alookup, h2, ih]

theorem mem_sadd [DecidableEq α] (l : List α) (x y : α) :
    y ∈ sadd l x ↔ y ∈ l ∨ y = x := by
  unfold sadd
  by_cases h : x ∈ l
  · simp only [if_pos h]
    constructor
    · exact Or.inl
    · rintro (hy | rfl) <;> [exact hy; exact h]
  · simp [if_neg h]

theorem mem_sdiscard [DecidableEq α] (l : List α) (x y : α) :
    y ∈ sdiscard l x ↔ y ∈ l ∧ y ≠ x := by
  simp [sdiscard]

theorem mem_of_mem_aset [DecidableEq κ] (m : List (κ × α)) (k : κ) (v : α) (p : κ × α)
    (hp : p ∈ aset m k v) : p = (k, v) ∨ p ∈ m := by
  induction m with
  | nil => simpa [aset] using hp
  | cons hd tl ih =>
    obtain ⟨hk, hv⟩ := hd
    rcases eq_or_ne hk k with h1 | h1
    · rcases (by simpa [aset, h1] using hp : p = (hk, v) ∨ p ∈ tl) with h | h
      · exact Or.inl (by simp [h, h1])
      · exact Or.inr (List.mem_cons_of_mem _ h)
    · rcases (by simpa [aset, h1] using hp : p = (hk, hv) ∨ p ∈ aset tl k v) with h | h
      · exact Or.inr (by simp [h])
      · rcases ih h with h2 | h2
        · exact Or.inl h2
        · exact Or.inr (List.mem_cons_of_mem _ h2)

theorem alookup_map_values [DecidableEq κ] (m : List (κ × α)) (g : α → β) (k : κ) :
    alookup (m.map (fun p => (p.1, g p.2))) k = (alookup m k).map g := by
  induction m with
  | nil => simp [alookup]
  | cons hd tl ih =>
    by_cases h : hd.1 = k <;> simp [alookup, h, ih]

/-! ## Index-consistency lemmas for the registry (claim C1, C10) -/
theorem alookup_mem [DecidableEq κ] (m : List (κ × α)) (k : κ) (v : α)
    (h : alookup m k = some v) : (k, v) ∈ m := by
  induction m with
  | nil => simp [alookup] at h
  | cons hd tl ih =>
    obtain ⟨hk, hv⟩ := hd
    by_cases h1 : hk = k
    · simp [alookup, h1] at h
      simp [h1, h]
    · simp [alookup, h1] at h
      exact List.mem_cons_of_mem _ (ih h)

theorem partsOf_join (s : CMState) (u0 c0 c : String) :
    partsOf (join_chat s u0 c0) c =
      if c = c0 then sadd (partsOf s c0) u0 else partsOf s c := by
  show dget (aset s.chat_participants c0 (sadd (partsOf s c0) u0)) c = _
  unfold dget
  rw [alookup_aset]
  by_cases h : c = c0 <;> simp [h, partsOf, dget]

theorem chatsOf_join (s : CMState) (u0 c0 u : String) :
    chatsOf (join_chat s u0 c0) u =
      if u = u0 then sadd (chatsOf s u0) c0 else chatsOf s u := by
  show dget (aset s.user_chats u0 (sadd (chatsOf s u0) c0)) u = _
  unfold dget
  rw [alookup_aset]
  by_cases h : u = u0 <;> simp [h, chatsOf, dget]

theorem partsOf_leave (s : CMState) (u0 c0 c : String) :
    partsOf (leave_chat s u0 c0) c =
      if c = c0 then sdiscard (partsOf s c0) u0 else partsOf s c := by
  unfold leave_chat partsOf dget
  cases hc : alookup s.chat_participants c0 with
  | none =>
    by_cases h : c = c0 <;> simp [hc, h, sdiscard]
  | some ps =>
    by_cases he : (sdiscard ps u0).isEmpty
    · by_cases h : c = c0 <;>
        simp [hc, he, h, alookup_adel, List.isEmpty_iff.mp he]
    · by_cases h : c = c0 <;> simp [hc, he, h, alookup_aset]

theorem chatsOf_leave (s : CMState) (u0 c0 u : String) :
    chatsOf (leave_chat s u0 c0) u =
      if u = u0 then sdiscard (chatsOf s u0) c0 else chatsOf s u := by
  unfold leave_chat chatsOf dget
  cases hc : alookup s.user_chats u0 with
  | none =>
    by_cases h : u = u0 <;> simp [hc, h, sdiscard]
  | some cs =>
    by_cases he : (sdiscard cs c0).isEmpty
    · by_cases h : u = u0 <;>
        simp [hc, he, h, alookup_adel, List.isEmpty_iff.mp he]
    · by_cases h : u = u0 <;> simp [hc, he, h, alookup_aset]

theorem invCM_init : InvCM initCM := by
  intro u c
  simp [initCM, partsOf, chatsOf, dget, alookup]

theorem invCM_join (s : CMState) (u0 c0 : String) (h : InvCM s) :
    InvCM (join_chat s u0 c0) := by
  intro u c
  rw [partsOf_join, chatsOf_join]
  by_cases hc : c = c0 <;> by_cases hu : u = u0
  · simp [hc, hu, mem_sadd]
  · simp [hc, hu, mem_sadd, h u c0]
  · simp [hc, hu, mem_sadd, h u0 c]
  · simp [hc, hu, h u c]

theorem invCM_leave (s : CMState) (u0 c0 : String) (h : InvCM s) :
    InvCM (leave_chat s u0 c0) := by
  intro u c
  rw [partsOf_leave, chatsOf_leave]
  by_cases hc : c = c0 <;> by_cases hu : u = u0
  · simp [hc, hu, mem_sdiscard]
  · simp [hc, hu, mem_sdiscard, h u c0]
  · simp [hc, hu, mem_sdiscard, h u0 c]
  · simp [hc, hu, h u c]

theorem leaveFold_inv (u0 : String) (L : List String) (s : CMState)
    (h : InvCM s) :
    InvCM (L.foldl (fun st c => leave_chat st u0 c) s) := by
  induction L generalizing s with
  | nil => exact h
  | cons c0 L ih => exact ih _ (invCM_leave s u0 c0 h)

theorem discTypingStep_fields (u0 : String) (st : CMState) (c0 : String) :
    (discTypingStep u0 st c0).chat_participants = st.chat_participants ∧
    (discTypingStep u0 st c0).user_chats = st.user_chats ∧
    (discTypingStep u0 st c0).active_connections = st.active_connections := by
  unfold discTypingStep
  cases alookup st.typing_status c0 with
  | none => exact ⟨rfl, rfl, rfl⟩
  | some us =>
    by_cases he : (sdiscard us u0).isEmpty <;> simp [he]

theorem discTypingFold_fields (u0 : String) (m : List (String × Nat))
    (st : CMState) :
    ((m.foldl (fun st p => discTypingStep u0 st p.1) st).chat_participants
        = st.chat_participants) ∧
    ((m.foldl (fun st p => discTypingStep u0 st p.1) st).user_chats
        = st.user_chats) ∧
    ((m.foldl (fun st p => discTypingStep u0 st p.1) st).active_connections
        = st.active_connections) := by
  induction m generalizing st with
  | nil => exact ⟨rfl, rfl, rfl⟩
  | cons p m ih =>
    obtain ⟨h1, h2, h3⟩ := ih (discTypingStep u0 st p.1)
    obtain ⟨g1, g2, g3⟩ := discTypingStep_fields u0 st p.1
    exact ⟨h1.trans g1, h2.trans g2, h3.trans g3⟩

theorem leaveFold_active (u0 : String) (L : List String) (st : CMState) :
    (L.foldl (fun st c => leave_chat st u0 c) st).active_connections
      = st.active_connections := by
  induction L generalizing st with
  | nil => rfl
  | cons c0 L ih => exact (ih (leave_chat st u0 c0)).trans rfl

theorem partsOf_eq_of_cp_eq (s t : CMState)
    (h : s.chat_participants = t.chat_participants) (c : String) :
    partsOf s c = partsOf t c := by
  unfold partsOf dget
  rw [h]

theorem chatsOf_eq_of_uc_eq (s t : CMState) (h : s.user_chats = t.user_chats)
    (u : String) : chatsOf s u = chatsOf t u := by
  unfold chatsOf dget
  rw [h]

theorem discTypingPhase_fields (u0 : String) (s2 : CMState) :
    (discTypingPhase u0 s2).chat_participants = s2.chat_participants ∧
    (discTypingPhase u0 s2).user_chats = s2.user_chats ∧
    (discTypingPhase u0 s2).active_connections = s2.active_connections := by
  unfold discTypingPhase
  cases alookup s2.typing_timestamps u0 with
  | none => exact ⟨rfl, rfl, rfl⟩
  | some m => exact discTypingFold_fields u0 m s2

theorem invCM_of_fields_eq (s t : CMState)
    (hcp : s.chat_participants = t.chat_participants)
    (huc : s.user_chats = t.user_chats) (h : InvCM t) : InvCM s := by
  intro u c
  rw [partsOf_eq_of_cp_eq s t hcp c, chatsOf_eq_of_uc_eq s t huc u]
  exact h u c

theorem invCM_disconnect (s : CMState) (u0 : String) (h : InvCM s) :
    InvCM (CM_disconnect s u0) := by
  have h1 : InvCM { s with active_connections := adel s.active_connections u0 } :=
    fun u c => h u c
  have h2 := leaveFold_inv u0
    (chatsOf { s with active_connections := adel s.active_connections u0 } u0)
    { s with active_connections := adel s.active_connections u0 } h1
  obtain ⟨f1, f2, f3⟩ := discTypingPhase_fields u0
    ((chatsOf { s with active_connections := adel s.active_connections u0 } u0).foldl
      (fun st c => leave_chat st u0 c)
      { s with active_connections := adel s.active_connections u0 })
  exact invCM_of_fields_eq _ _ f1 f2 h2

theorem invCM_applyRegOp (s : CMState) (op : RegOp) (h : InvCM s) :
    InvCM (applyRegOp s op) := by
  cases op with
  | opJoin u c => exact invCM_join s u c h
  | opLeave u c => exact invCM_leave s u c h
  | opDisconnect u => exact invCM_disconnect s u h

theorem invCM_foldRegOps (ops : List RegOp) (s : CMState) (h : InvCM s) :
    InvCM (ops.foldl applyRegOp s) := by
  induction ops generalizing s with
  | nil => exact h
  | cons op ops ih => exact ih _ (invCM_applyRegOp s op h)

/-- Membership in the forward index after the `leave_chat` loop of
`disconnect`: the user remains a participant of a chat exactly when they
were one before and the chat is not in the processed snapshot. -/
theorem leaveFold_mem_parts (u0 : String) (L : List String) (st : CMState)
    (c : String) :
    u0 ∈ partsOf (L.foldl (fun st c => leave_chat st u0 c) st) c ↔
      u0 ∈ partsOf st c ∧ c ∉ L := by
  induction L generalizing st with
  | nil => simp
  | cons c0 L ih =>
    rw [List.foldl_cons, ih]
    rw [partsOf_leave]
    by_cases h : c = c0
    · simp [h, mem_sdiscard]
    · simp [h]

/-- A user, once a participant only of chats listed in their inverse-index
entry, is a participant of no chat after `disconnect`. -/
theorem disconnect_not_participant (s : CMState) (u0 : String)
    (h : ∀ p ∈ s.chat_participants, u0 ∈ p.2 → p.1 ∈ chatsOf s u0) (c : String) :
    u0 ∉ partsOf (CM_disconnect s u0) c := by
  intro hmem
  obtain ⟨f1, f2, f3⟩ := discTypingPhase_fields u0
    ((chatsOf { s with active_connections := adel s.active_connections u0 } u0).foldl
      (fun st c => leave_chat st u0 c)
      { s with active_connections := adel s.active_connections u0 })
  rw [show CM_disconnect s u0 = discTypingPhase u0
      ((chatsOf { s with active_connections := adel s.active_connections u0 } u0).foldl
        (fun st c => leave_chat st u0 c)
        { s with active_connections := adel s.active_connections u0 }) from rfl] at hmem
  rw [partsOf_eq_of_cp_eq _ _ f1 c] at hmem
  rw [leaveFold_mem_parts] at hmem
  obtain ⟨hin, hnot⟩ := hmem
  have hin2 : u0 ∈ partsOf s c := hin
  have hch : chatsOf { s with active_connections := adel s.active_connections u0 } u0
      = chatsOf s u0 := rfl
  rw [hch] at hnot
  unfold partsOf dget at hin2
  cases hc : alookup s.chat_participants c with
  | none => rw [hc] at hin2; simp at hin2
  | some ps =>
    rw [hc] at hin2
    simp at hin2
    exact hnot (h (c, ps) (alookup_mem _ _ _ hc) hin2)

/-- The user's key is gone from `active_connections` after `disconnect`,
whatever connection handle was stored under it. -/
theorem disconnect_active_none (s : CMState) (u0 : String) :
    alookup (CM_disconnect s u0).active_connections u0 = none := by
  obtain ⟨f1, f2, f3⟩ := discTypingPhase_fields u0
    ((chatsOf { s with active_connections := adel s.active_connections u0 } u0).foldl
      (fun st c => leave_chat st u0 c)
      { s with active_connections := adel s.active_connections u0 })
  rw [show CM_disconnect s u0 = discTypingPhase u0
      ((chatsOf { s with active_connections := adel s.active_connections u0 } u0).foldl
        (fun st c => leave_chat st u0 c)
        { s with active_connections := adel s.active_connections u0 }) from rfl]
  rw [f3, leaveFold_active]
  rw [show ({ s with active_connections := adel s.active_connections u0 } :
      CMState).active_connections = adel s.active_connections u0 from rfl]
  rw [alookup_adel]
  simp

/-! ## Broadcast fan-out lemmas (claim C4) -/
theorem disconnect_active (s : CMState) (u0 v : String) :
    alookup (CM_disconnect s u0).active_connections v =
      if v = u0 then none else alookup s.active_connections v := by
  obtain ⟨f1, f2, f3⟩ := discTypingPhase_fields u0
    ((chatsOf { s with active_connections := adel s.active_connections u0 } u0).foldl
      (fun st c => leave_chat st u0 c)
      { s with active_connections := adel s.active_connections u0 })
  rw [show CM_disconnect s u0 = discTypingPhase u0
      ((chatsOf { s with active_connections := adel s.active_connections u0 } u0).foldl
        (fun st c => leave_chat st u0 c)
        { s with active_connections := adel s.active_connections u0 }) from rfl]
  rw [f3, leaveFold_active]
  exact alookup_adel s.active_connections u0 v

theorem send_personal_message_fst (sendOk : String → Bool) (s : CMState)
    (u : String) :
    (send_personal_message sendOk s u).1 =
      ((alookup s.active_connections u).isSome && sendOk u) := by
  unfold send_personal_message
  cases alookup s.active_connections u with
  | none => simp
  | some w => by_cases h : sendOk u <;> simp [h]

theorem send_personal_message_pred (sendOk : String → Bool) (s : CMState)
    (u v : String) :
    ((alookup (send_personal_message sendOk s u).2.active_connections v).isSome
        && sendOk v) =
      ((alookup s.active_connections v).isSome && sendOk v) := by
  cases hu : alookup s.active_connections u with
  | none =>
    rw [show (send_personal_message sendOk s u).2 = s by
      unfold send_personal_message
      rw [hu]]
  | some w =>
    by_cases h : sendOk u
    · rw [show (send_personal_message sendOk s u).2 = s by
        unfold send_personal_message
        rw [hu]
        simp [h]]
    · rw [show (send_personal_message sendOk s u).2 = CM_disconnect s u by
        unfold send_personal_message
        rw [hu]
        simp [h]]
      rw [disconnect_active]
      by_cases hv : v = u
      · subst hv
        simp [hu, h]
      · simp [hv]

theorem bcastLoop_spec (sendOk : String → Bool) (l : List String) (s : CMState) :
    (bcastLoop sendOk l s).2.2 =
        l.filter (fun u => (alookup s.active_connections u).isSome && sendOk u) ∧
      (bcastLoop sendOk l s).2.1 =
        l.filter (fun u => !((alookup s.active_connections u).isSome && sendOk u)) := by
  induction l generalizing s with
  | nil => exact ⟨rfl, rfl⟩
  | cons u rest ih =>
    obtain ⟨ihs, ihd⟩ := ih (send_personal_message sendOk s u).2
    have hpred : ∀ v ∈ rest,
        ((alookup (send_personal_message sendOk s u).2.active_connections v).isSome
            && sendOk v) =
          ((alookup s.active_connections v).isSome && sendOk v) :=
      fun v _ => send_personal_message_pred sendOk s u v
    have hsent : (bcastLoop sendOk rest (send_personal_message sendOk s u).2).2.2 =
        rest.filter (fun v => (alookup s.active_connections v).isSome && sendOk v) := by
      rw [ihs]
      exact List.filter_congr hpred
    have hdisc : (bcastLoop sendOk rest (send_personal_message sendOk s u).2).2.1 =
        rest.filter (fun v => !((alookup s.active_connections v).isSome && sendOk v)) := by
      rw [ihd]
      exact List.filter_congr (fun v hv => by rw [hpred v hv])
    by_cases hok : ((alookup s.active_connections u).isSome && sendOk u) = true
    · constructor
      · simp only [bcastLoop, send_personal_message_fst, hok, if_true,
          List.filter_cons]
        rw [hsent]
      · simp only [bcastLoop, send_personal_message_fst, hok, if_true,
          List.filter_cons]
        rw [hdisc]
        simp [hok]
    · have hok2 : ((alookup s.active_connections u).isSome && sendOk u) = false := by
        simpa using hok
      constructor
      · simp only [bcastLoop, send_personal_message_fst, hok2,
          Bool.false_eq_true, if_false, List.filter_cons]
        rw [hsent]
      · simp only [bcastLoop, send_personal_message_fst, hok2,
          Bool.false_eq_true, if_false, List.filter_cons]
        rw [hdisc]
        simp [hok2]

theorem not_mem_parts_leave (st : CMState) (u v chat d : String)
    (h : u ∉ partsOf st chat) : u ∉ partsOf (leave_chat st v d) chat := by
  rw [partsOf_leave]
  by_cases hc : chat = d
  · simp only [hc, if_true]
    rw [mem_sdiscard]
    rw [hc] at h
    exact fun hx => h hx.1
  · simpa [hc] using h

theorem leaveUsersFold_shrink (chat : String) (L : List String) (st : CMState)
    (u : String) (h : u ∉ partsOf st chat) :
    u ∉ partsOf (L.foldl (fun st v => leave_chat st v chat) st) chat := by
  induction L generalizing st with
  | nil => exact h
  | cons v L ih =>
    rw [List.foldl_cons]
    exact ih (leave_chat st v chat) (not_mem_parts_leave st u v chat chat h)

theorem leaveUsersFold_not_mem (chat : String) (L : List String) (st : CMState)
    (u : String) (hu : u ∈ L) :
    u ∉ partsOf (L.foldl (fun st v => leave_chat st v chat) st) chat := by
  induction L generalizing st with
  | nil => cases hu
  | cons v L ih =>
    rw [List.foldl_cons]
    rcases List.mem_cons.mp hu with rfl | hu2
    · exact leaveUsersFold_shrink chat L (leave_chat st u chat) u
        (by rw [partsOf_leave]; simp [mem_sdiscard])
    · exact ih (leave_chat st v chat) hu2

/-! ## Typing-expiry lemmas (claim C7) -/
theorem alookup_eq_none_of_adel_nil [DecidableEq κ] (m : List (κ × α)) (k k' : κ)
    (h : adel m k = []) (hk : k' ≠ k) : alookup m k' = none := by
  induction m with
  | nil => rfl
  | cons hd tl ih =>
    obtain ⟨hk0, hv0⟩ := hd
    by_cases h1 : hk0 = k
    · have h2 : adel tl k = [] := by simpa [adel, h1] using h
      have h3 : alookup tl k' = none := ih h2
      have hne : hk0 ≠ k' := fun hh => hk (hh.symm.trans h1)
      simp [alookup, hne, h3]
    · simp [adel, h1] at h

theorem typingOf_sts_false (s : CMState) (u0 c0 : String) (t : Nat) (c : String) :
    typingOf (set_typing_status s u0 c0 false t) c =
      if c = c0 then sdiscard (typingOf s c0) u0 else typingOf s c := by
  unfold set_typing_status
  simp only [Bool.false_eq_true, if_false]
  cases hc : alookup s.typing_status c0 with
  | none =>
    by_cases h : c = c0 <;> simp [typingOf, dget, hc, h, sdiscard]
  | some us =>
    by_cases he : (sdiscard us u0).isEmpty
    · by_cases h : c = c0 <;>
        simp [typingOf, dget, hc, he, h, alookup_adel, List.isEmpty_iff.mp he]
    · by_cases h : c = c0 <;> simp [typingOf, dget, hc, he, h, alookup_aset]

theorem tsOf_sts_false (s : CMState) (u0 c0 : String) (t : Nat) (u c : String) :
    tsOf (set_typing_status s u0 c0 false t) u c =
      if u = u0 ∧ c = c0 then none else tsOf s u c := by
  unfold set_typing_status
  simp only [Bool.false_eq_true, if_false]
  cases hm : alookup s.typing_timestamps u0 with
  | none =>
    by_cases hu : u = u0
    · by_cases hcc : c = c0 <;> simp [tsOf, dget, hm, hu, hcc, alookup]
    · by_cases hcc : c = c0 <;> simp [tsOf, dget, hm, hu, hcc]
  | some m =>
    by_cases he : (adel m c0).isEmpty
    · by_cases hu : u = u0
      · by_cases hcc : c = c0
        · simp [tsOf, dget, hm, he, hu, hcc, alookup_adel, alookup]
        · have : alookup m c = none :=
            alookup_eq_none_of_adel_nil m c0 c (List.isEmpty_iff.mp he) hcc
          simp [tsOf, dget, hm, he, hu, hcc, alookup_adel, alookup, this]
      · by_cases hcc : c = c0 <;>
          simp [tsOf, dget, hm, he, hu, hcc, alookup_adel]
    · by_cases hu : u = u0
      · by_cases hcc : c = c0 <;>
          simp [tsOf, dget, hm, he, hu, hcc, alookup_aset, alookup_adel]
      · by_cases hcc : c = c0 <;>
          simp [tsOf, dget, hm, he, hu, hcc, alookup_aset]

theorem removeFold_typingOf (c0 : String) (L : List String) (s : CMState) :
    typingOf (L.foldl (fun st u => set_typing_status st u c0 false 0) s) c0 =
      (typingOf s c0).filter (fun v => decide (v ∉ L)) := by
  induction L generalizing s with
  | nil => simp
  | cons u L ih =>
    rw [List.foldl_cons, ih, typingOf_sts_false]
    simp only [if_pos rfl]
    show ((typingOf s c0).filter (fun y => decide (y ≠ u))).filter _ = _
    rw [List.filter_filter]
    apply List.filter_congr
    intro v hv
    by_cases h1 : v = u <;> by_cases h2 : v ∈ L <;> simp [h1, h2]

theorem removeFold_tsOf (c0 : String) (L : List String) (s : CMState)
    (u c : String) :
    tsOf (L.foldl (fun st u => set_typing_status st u c0 false 0) s) u c =
      if u ∈ L ∧ c = c0 then none else tsOf s u c := by
  induction L generalizing s with
  | nil => simp
  | cons v L ih =>
    rw [List.foldl_cons, ih, tsOf_sts_false]
    by_cases h1 : u ∈ L <;> by_cases h2 : c = c0 <;> by_cases h3 : u = v <;>
      simp [h1, h2, h3]

theorem fresh_not_stale (s : CMState) (c : String) (e now : Nat) (v : String)
    (h : typingFresh s c e now v = true) : typingStale s c e now v = false := by
  unfold typingFresh at h
  unfold typingStale
  cases ht : tsOf s v c with
  | none => rfl
  | some t =>
    rw [ht] at h
    have h2 : now - t ≤ e := of_decide_eq_true h
    simp [Nat.not_lt.mpr h2]

theorem gtu_eq_none (s : CMState) (chat : String) (e now : Nat)
    (hc : alookup s.typing_status chat = none) :
    get_typing_users s chat e now = ([], s) := by
  unfold get_typing_users
  rw [hc]

theorem gtu_eq_some (s : CMState) (chat : String) (e now : Nat)
    (users : List String) (hc : alookup s.typing_status chat = some users) :
    get_typing_users s chat e now =
      (users.filter (typingFresh s chat e now),
       (users.filter (typingStale s chat e now)).foldl
         (fun st u => set_typing_status st u chat false 0) s) := by
  unfold get_typing_users
  rw [hc]

/-- Every user returned by `get_typing_users` carries a timestamp within the
expiry window at the time of the call. -/
theorem gtu_fresh_only (s : CMState) (chat : String) (e now : Nat) :
    ∀ u ∈ (get_typing_users s chat e now).1,
      ∃ t, tsOf s u chat = some t ∧ now - t ≤ e := by
  intro u hu
  cases hc : alookup s.typing_status chat with
  | none =>
    rw [gtu_eq_none s chat e now hc] at hu
    cases hu
  | some users =>
    rw [gtu_eq_some s chat e now users hc] at hu
    obtain ⟨h1, h2⟩ := List.mem_filter.mp hu
    unfold typingFresh at h2
    cases ht : tsOf s u chat with
    | none => rw [ht] at h2; cases h2
    | some t =>
      rw [ht] at h2
      exact ⟨t, rfl, of_decide_eq_true h2⟩

/-- Every stale member of the chat's typing set is removed from both typing
structures by `get_typing_users`. -/
theorem gtu_removes_stale (s : CMState) (chat : String) (e now : Nat) :
    ∀ u, u ∈ typingOf s chat → typingStale s chat e now u = true →
      u ∉ typingOf (get_typing_users s chat e now).2 chat ∧
        tsOf (get_typing_users s chat e now).2 u chat = none := by
  intro u hu hs
  cases hc : alookup s.typing_status chat with
  | none =>
    simp [typingOf, dget, hc] at hu
  | some users =>
    have husers : typingOf s chat = users := by simp [typingOf, dget, hc]
    rw [gtu_eq_some s chat e now users hc]
    have hexp : u ∈ users.filter (typingStale s chat e now) :=
      List.mem_filter.mpr ⟨husers ▸ hu, hs⟩
    constructor
    · rw [removeFold_typingOf]
      intro hmem
      obtain ⟨h1, h2⟩ := List.mem_filter.mp hmem
      exact (of_decide_eq_true h2) hexp
    · rw [removeFold_tsOf]
      simp [hexp]

/-- A second `get_typing_users` call at the same instant returns the same
list and leaves the state untouched. -/
theorem gtu_idempotent (s : CMState) (chat : String) (e now : Nat) :
    get_typing_users (get_typing_users s chat e now).2 chat e now =
      ((get_typing_users s chat e now).1, (get_typing_users s chat e now).2) := by
  cases hc : alookup s.typing_status chat with
  | none =>
    rw [gtu_eq_none s chat e now hc]
    exact gtu_eq_none s chat e now hc
  | some users =>
    have husers : typingOf s chat = users := by simp [typingOf, dget, hc]
    rw [gtu_eq_some s chat e now users hc]
    set fr := users.filter (typingFresh s chat e now) with hfr
    set ex := users.filter (typingStale s chat e now) with hex
    by_cases hE : ex = []
    · rw [show ex.foldl (fun st u => set_typing_status st u chat false 0) s = s by
        rw [hE]
        rfl]
      rw [gtu_eq_some s chat e now users hc, ← hfr, ← hex, hE]
      rfl
    · set s2 := ex.foldl (fun st u => set_typing_status st u chat false 0) s with hs2
      have hty : typingOf s2 chat = users.filter (fun v => decide (v ∉ ex)) := by
        rw [hs2, removeFold_typingOf, husers]
      cases h2 : alookup s2.typing_status chat with
      | none =>
        rw [gtu_eq_none s2 chat e now h2]
        have hty2 : typingOf s2 chat = [] := by simp [typingOf, dget, h2]
        have hall : ∀ v ∈ users, v ∈ ex := by
          intro v hv
          by_contra hnv
          have hvf : v ∈ users.filter (fun v => decide (v ∉ ex)) :=
            List.mem_filter.mpr ⟨hv, decide_eq_true hnv⟩
          rw [← hty, hty2] at hvf
          cases hvf
        have hfr0 : fr = [] := by
          rw [hfr, List.filter_eq_nil_iff]
          intro v hv hfv
          have hvex := hall v hv
          rw [hex] at hvex
          have hst := (List.mem_filter.mp hvex).2
          rw [fresh_not_stale s chat e now v hfv] at hst
          cases hst
        rw [hfr0]
      | some l =>
        have hl : l = users.filter (fun v => decide (v ∉ ex)) := by
          have hh : typingOf s2 chat = l := by simp [typingOf, dget, h2]
          rw [← hh, hty]
        rw [gtu_eq_some s2 chat e now l h2]
        have hts : ∀ v ∈ l, tsOf s2 v chat = tsOf s v chat := by
          intro v hv
          rw [hl] at hv
          obtain ⟨hv1, hv2⟩ := List.mem_filter.mp hv
          rw [hs2, removeFold_tsOf]
          simp [of_decide_eq_true hv2]
        have hfresh_eq : ∀ v ∈ l,
            typingFresh s2 chat e now v = typingFresh s chat e now v := by
          intro v hv
          unfold typingFresh
          rw [hts v hv]
        have hstale_eq : ∀ v ∈ l,
            typingStale s2 chat e now v = typingStale s chat e now v := by
          intro v hv
          unfold typingStale
          rw [hts v hv]
        have hact : l.filter (typingFresh s2 chat e now) = fr := by
          rw [List.filter_congr hfresh_eq, hl, List.filter_filter, hfr]
          apply List.filter_congr
          intro v hv
          cases hfv : typingFresh s chat e now v with
          | false => simp
          | true =>
            have hns := fresh_not_stale s chat e now v hfv
            have hnex : v ∉ ex := by
              rw [hex]
              intro hvex
              have hst := (List.mem_filter.mp hvex).2
              rw [hns] at hst
              cases hst
            simp [hnex]
        have hexp2 : l.filter (typingStale s2 chat e now) = [] := by
          rw [List.filter_congr hstale_eq, List.filter_eq_nil_iff]
          intro v hv hsv
          rw [hl] at hv
          obtain ⟨hv1, hv2⟩ := List.mem_filter.mp hv
          exact (of_decide_eq_true hv2)
            (by rw [hex]; exact List.mem_filter.mpr ⟨hv1, hsv⟩)
        rw [hact, hexp2]
        rfl

theorem statusOf_eq_of_tracking_eq (s t : WSState)
    (h : s.message_tracking = t.message_tracking) (m : String) :
    statusOf s m = statusOf t m := by
  unfold statusOf
  rw [h]

theorem good_of_tracking_eq (s t : WSState)
    (h : s.message_tracking = t.message_tracking) (hg : GoodStatuses t) :
    GoodStatuses s := by
  intro p hp
  exact hg p (h ▸ hp)

theorem statusOf_aset (s : WSState) (mid : String) (i : MsgInfo) (m : String) :
    statusOf { s with message_tracking := aset s.message_tracking mid i } m =
      if m = mid then some i.status else statusOf s m := by
  unfold statusOf
  rw [show ({ s with message_tracking := aset s.message_tracking mid i } :
      WSState).message_tracking = aset s.message_tracking mid i from rfl]
  rw [alookup_aset]
  by_cases h : m = mid <;> simp [h]

theorem good_aset (s : WSState) (mid : String) (i : MsgInfo)
    (hs : GoodStatuses s) (hi : i.status = "sent" ∨ i.status = "delivered") :
    GoodStatuses { s with message_tracking := aset s.message_tracking mid i } := by
  intro p hp
  rcases mem_of_mem_aset _ _ _ p hp with h | h
  · rw [h]
    exact hi
  · exact hs p h

theorem statusOf_mapTracking (s : WSState) (g : MsgInfo → MsgInfo)
    (hg : ∀ i, (g i).status = i.status) (m : String) :
    statusOf { s with message_tracking :=
        s.message_tracking.map (fun p => (p.1, g p.2)) } m = statusOf s m := by
  unfold statusOf
  rw [show ({ s with message_tracking :=
      s.message_tracking.map (fun p => (p.1, g p.2)) } :
      WSState).message_tracking =
      s.message_tracking.map (fun p => (p.1, g p.2)) from rfl]
  rw [alookup_map_values]
  cases alookup s.message_tracking m <;> simp [hg]

theorem good_mapTracking (s : WSState) (g : MsgInfo → MsgInfo)
    (hg : ∀ i, (g i).status = i.status) (hs : GoodStatuses s) :
    GoodStatuses { s with message_tracking :=
        s.message_tracking.map (fun p => (p.1, g p.2)) } := by
  intro p hp
  obtain ⟨q, hq, hpq⟩ := List.mem_map.mp hp
  have := hs q hq
  rw [← hpq]
  simpa [hg] using this

theorem statusOf_updTracking_gen (s : WSState) (mid : String)
    (f : MsgInfo → MsgInfo) (m : String) :
    statusOf (updTracking s mid f) m =
      match alookup s.message_tracking mid with
      | none => statusOf s m
      | some i => if m = mid then some (f i).status else statusOf s m := by
  unfold updTracking
  cases h : alookup s.message_tracking mid with
  | none => rfl
  | some i => rw [statusOf_aset]

theorem statusOf_updTracking_pres (s : WSState) (mid : String)
    (f : MsgInfo → MsgInfo) (hf : ∀ i, (f i).status = i.status) (m : String) :
    statusOf (updTracking s mid f) m = statusOf s m := by
  unfold updTracking
  cases h : alookup s.message_tracking mid with
  | none => rfl
  | some i =>
    rw [statusOf_aset]
    by_cases hm : m = mid
    · rw [if_pos hm, hf i, hm]
      unfold statusOf
      rw [h]
      rfl
    · rw [if_neg hm]

theorem good_updTracking (s : WSState) (mid : String) (f : MsgInfo → MsgInfo)
    (hf : ∀ i, (f i).status = i.status) (hs : GoodStatuses s) :
    GoodStatuses (updTracking s mid f) := by
  unfold updTracking
  cases h : alookup s.message_tracking mid with
  | none => exact hs
  | some i =>
    apply good_aset s mid (f i) hs
    rw [hf i]
    exact hs (mid, i) (alookup_mem _ _ _ h)

theorem rank_le_two_of_good (s : WSState) (mid : String)
    (hs : GoodStatuses s) : statusRank (statusOf s mid) ≤ 2 := by
  unfold statusOf
  cases h : alookup s.message_tracking mid with
  | none => simp [statusRank]
  | some i =>
    rcases hs (mid, i) (alookup_mem _ _ _ h) with h2 | h2 <;>
      have h3 : i.status = _ := h2 <;> simp [statusRank, h3]

theorem auto_check_statusOf (s : WSState) (rws : Conn) (mid : String)
    (ts : Nat) (m : String) :
    statusOf (auto_check_read_status s rws mid ts) m = statusOf s m := by
  unfold auto_check_read_status
  split
  · rfl
  · split
    · rfl
    · split
      · rfl
      · split
        · rfl
        · split
          · rfl
          · split
            · rename_i o1 lrt hlrt o2 info hinfo o3 rid hrid hne hread hts
              simp only [statusOf_aset]
              by_cases hm : m = mid
              · rw [if_pos hm, hm]
                unfold statusOf
                rw [hinfo]
                rfl
              · rw [if_neg hm]
            · rfl

theorem auto_check_good (s : WSState) (rws : Conn) (mid : String) (ts : Nat)
    (hs : GoodStatuses s) :
    GoodStatuses (auto_check_read_status s rws mid ts) := by
  unfold auto_check_read_status
  split
  · exact hs
  · split
    · exact hs
    · split
      · exact hs
      · split
        · exact hs
        · split
          · exact hs
          · split
            · rename_i o1 lrt hlrt o2 info hinfo o3 rid hrid hne hread hts
              exact good_aset s mid _ hs
                (hs (mid, info) (alookup_mem _ _ _ hinfo))
            · exact hs

theorem bmLoop_statusOf (sendOk : Conn → Bool) (sw : Conn) (mid : String)
    (ts : Nat) (l : List Conn) (s : WSState) (cnt : Nat) (m : String) :
    statusOf (bmLoop sendOk sw mid ts l s cnt).1 m = statusOf s m := by
  induction l generalizing s cnt with
  | nil => rfl
  | cons c rest ih =>
    simp only [bmLoop]
    by_cases h1 : c ≠ sw ∧ (alookup s.authenticated_users c).isSome
    · rw [if_pos h1]
      by_cases h2 : sendOk c
      · rw [if_pos h2]
        rw [ih]
        rw [auto_check_statusOf]
        exact statusOf_updTracking_pres s mid
          (fun i => { i with recipients := sadd i.recipients c })
          (fun i => rfl) m
      · rw [if_neg h2]
        rfl
    · rw [if_neg h1]
      exact ih s cnt

theorem bmLoop_good (sendOk : Conn → Bool) (sw : Conn) (mid : String)
    (ts : Nat) (l : List Conn) (s : WSState) (cnt : Nat)
    (hs : GoodStatuses s) : GoodStatuses (bmLoop sendOk sw mid ts l s cnt).1 := by
  induction l generalizing s cnt with
  | nil => exact hs
  | cons c rest ih =>
    simp only [bmLoop]
    by_cases h1 : c ≠ sw ∧ (alookup s.authenticated_users c).isSome
    · rw [if_pos h1]
      by_cases h2 : sendOk c
      · rw [if_pos h2]
        apply ih
        apply auto_check_good
        exact good_updTracking s mid
          (fun i => { i with recipients := sadd i.recipients c })
          (fun i => rfl) hs
      · rw [if_neg h2]
        exact hs
    · rw [if_neg h1]
      exact ih s cnt hs

theorem cleanup_tracking (sendOk : Conn → Bool) (s : WSState) (ws : Conn) :
    (cleanup_connection sendOk s ws).message_tracking =
      s.message_tracking.map (fun p => (p.1, scrubConn ws p.2)) := by
  unfold cleanup_connection broadcast_typing_event
  dsimp only
  split
  · rfl
  · split
    · rfl
    · split
      · rfl
      · split <;> rfl

theorem cleanup_statusOf (sendOk : Conn → Bool) (s : WSState) (ws : Conn)
    (m : String) :
    statusOf (cleanup_connection sendOk s ws) m = statusOf s m := by
  unfold statusOf
  rw [cleanup_tracking, alookup_map_values]
  cases alookup s.message_tracking m <;> simp [scrubConn]

theorem cleanup_good (sendOk : Conn → Bool) (s : WSState) (ws : Conn)
    (hs : GoodStatuses s) : GoodStatuses (cleanup_connection sendOk s ws) := by
  intro p hp
  rw [cleanup_tracking] at hp
  obtain ⟨q, hq, hpq⟩ := List.mem_map.mp hp
  rw [← hpq]
  simpa [scrubConn] using hs q hq

theorem msgRead_statusOf (s : WSState) (ws : Conn) (mid : Option String)
    (m : String) :
    statusOf (handle_message_read s ws mid).1 m = statusOf s m := by
  unfold handle_message_read
  split
  · rfl
  · split
    · rfl
    · split
      · rfl
      · split
        · rfl
        · split
          · rfl
          · rename_i o1 rid hrid o2 m0 hne o3 info hinfo hsender
            simp only [statusOf_aset]
            by_cases hm : m = m0
            · rw [if_pos hm, hm]
              unfold statusOf
              rw [hinfo]
              rfl
            · rw [if_neg hm]

theorem msgRead_good (s : WSState) (ws : Conn) (mid : Option String)
    (hs : GoodStatuses s) : GoodStatuses (handle_message_read s ws mid).1 := by
  unfold handle_message_read
  split
  · exact hs
  · split
    · exact hs
    · split
      · exact hs
      · split
        · exact hs
        · split
          · exact hs
          · rename_i o1 rid hrid o2 m0 hne o3 info hinfo hsender
            exact good_aset s m0 _ hs (hs (m0, info) (alookup_mem _ _ _ hinfo))

theorem updLastRead_statusOf (s : WSState) (ws : Conn) (t : Option Nat)
    (m : String) :
    statusOf (handle_update_last_read_time s ws t) m = statusOf s m := by
  unfold handle_update_last_read_time check_all_messages_for_auto_read
  split
  · rfl
  · split
    · rfl
    · split
      · rfl
      · dsimp only
        split
        · rfl
        · split
          · rfl
          · rename_i o1 rid0 hrid0 o2 tv htv0 o3 rid2 hrid2 hne2
            exact statusOf_mapTracking
              { s with user_last_read_time := aset s.user_last_read_time ws tv }
              (autoReadUpd ws tv)
              (fun i => by unfold autoReadUpd; split <;> rfl) m

theorem updLastRead_good (s : WSState) (ws : Conn) (t : Option Nat)
    (hs : GoodStatuses s) :
    GoodStatuses (handle_update_last_read_time s ws t) := by
  unfold handle_update_last_read_time check_all_messages_for_auto_read
  split
  · exact hs
  · split
    · exact hs
    · split
      · exact hs
      · dsimp only
        split
        · exact hs
        · split
          · exact hs
          · rename_i o1 rid0 hrid0 o2 tv htv0 o3 rid2 hrid2 hne2
            exact good_mapTracking
              { s with user_last_read_time := aset s.user_last_read_time ws tv }
              (autoReadUpd ws tv)
              (fun i => by unfold autoReadUpd; split <;> rfl) hs

theorem deliver_rank_good (sendOk : Conn → Bool) (s : WSState)
    (mid0 rcv : String) (hs : GoodStatuses s) (mid : String) :
    statusRank (statusOf s mid) ≤
        statusRank (statusOf (deliver_to_user sendOk s mid0 rcv) mid) ∧
      GoodStatuses (deliver_to_user sendOk s mid0 rcv) := by
  unfold deliver_to_user
  split
  · exact ⟨le_refl _, hs⟩
  · split
    · exact ⟨le_refl _, hs⟩
    · split
      · rename_i o1 info hinfo o2 rws hrws hok
        dsimp only
        set info2 : MsgInfo :=
          { info with
            recipients := sadd info.recipients rws,
            delivered_to := sadd info.delivered_to rws,
            status := "delivered" } with hinfo2
        have hst : info2.status = "delivered" := by rw [hinfo2]
        have hgood1 : GoodStatuses
            { s with message_tracking := aset s.message_tracking mid0 info2 } :=
          good_aset s mid0 info2 hs (Or.inr hst)
        have hrank1 : statusRank (statusOf s mid) ≤ statusRank (statusOf
            { s with message_tracking := aset s.message_tracking mid0 info2 } mid) := by
          rw [statusOf_aset]
          by_cases hm : mid = mid0
          · rw [if_pos hm, hst]
            refine le_trans (rank_le_two_of_good s mid hs) ?_
            show (2 : Nat) ≤ statusRank (some "delivered")
            decide
          · rw [if_neg hm]
        by_cases hsend : sendOk info.sender_ws = true
        · rw [if_pos hsend]
          constructor
          · rw [auto_check_statusOf]
            exact hrank1
          · exact auto_check_good _ _ _ _ hgood1
        · rw [if_neg hsend]
          exact ⟨hrank1, hgood1⟩
      · exact ⟨le_refl _, hs⟩

theorem broadcast_rank_good (sendOk : Conn → Bool) (s : WSState) (sw : Conn)
    (mid0 : String) (hs : GoodStatuses s) (mid : String) :
    statusRank (statusOf s mid) ≤
        statusRank (statusOf (broadcast_message sendOk s sw mid0) mid) ∧
      GoodStatuses (broadcast_message sendOk s sw mid0) := by
  unfold broadcast_message
  split
  · exact ⟨le_refl _, hs⟩
  · rename_i o1 info hinfo
    dsimp only
    have hloopS : ∀ m', statusOf
        (bmLoop sendOk sw mid0 info.timestamp s.connected_clients s 0).1 m' =
          statusOf s m' :=
      fun m' => bmLoop_statusOf sendOk sw mid0 info.timestamp
        s.connected_clients s 0 m'
    have hloopG : GoodStatuses
        (bmLoop sendOk sw mid0 info.timestamp s.connected_clients s 0).1 :=
      bmLoop_good sendOk sw mid0 info.timestamp s.connected_clients s 0 hs
    by_cases hcond :
        (bmLoop sendOk sw mid0 info.timestamp s.connected_clients s 0).2.2 = true ∧
          0 < (bmLoop sendOk sw mid0 info.timestamp s.connected_clients s 0).2.1
    · rw [if_pos hcond]
      have htr : statusOf
          (bmLoop sendOk sw mid0 info.timestamp s.connected_clients s 0).1 mid0 =
            some info.status := by
        rw [hloopS]
        unfold statusOf
        rw [hinfo]
        rfl
      obtain ⟨i2, hi2, hi2s⟩ := Option.map_eq_some'.mp htr
      constructor
      · unfold updTracking
        rw [hi2]
        rw [statusOf_aset]
        by_cases hm : mid = mid0
        · rw [if_pos hm]
          refine le_trans (rank_le_two_of_good s mid hs) ?_
          show (2 : Nat) ≤ statusRank (some "delivered")
          decide
        · rw [if_neg hm]
          rw [hloopS]
      · unfold updTracking
        rw [hi2]
        exact good_aset _ mid0 _ hloopG (Or.inr rfl)
    · rw [if_neg hcond]
      exact ⟨le_of_eq (congrArg statusRank (hloopS mid)).symm, hloopG⟩

theorem applyDR_rank_good (s : WSState) (op : DROp) (hs : GoodStatuses s)
    (mid : String) :
    statusRank (statusOf s mid) ≤ statusRank (statusOf (applyDR s op) mid) ∧
      GoodStatuses (applyDR s op) := by
  cases op with
  | opDeliver sendOk m0 r => exact deliver_rank_good sendOk s m0 r hs mid
  | opBroadcast sendOk sw m0 => exact broadcast_rank_good sendOk s sw m0 hs mid
  | opMsgRead ws m0 =>
    exact ⟨le_of_eq (congrArg statusRank (msgRead_statusOf s ws m0 mid)).symm,
      msgRead_good s ws m0 hs⟩
  | opUpdLastRead ws t =>
    exact ⟨le_of_eq (congrArg statusRank (updLastRead_statusOf s ws t mid)).symm,
      updLastRead_good s ws t hs⟩
  | opCleanup sendOk ws =>
    exact ⟨le_of_eq (congrArg statusRank (cleanup_statusOf sendOk s ws mid)).symm,
      cleanup_good sendOk s ws hs⟩

theorem runDR_rank_good (ops : List DROp) (s : WSState) (hs : GoodStatuses s)
    (mid : String) :
    statusRank (statusOf s mid) ≤ statusRank (statusOf (runDR ops s) mid) ∧
      GoodStatuses (runDR ops s) := by
  induction ops generalizing s with
  | nil => exact ⟨le_refl _, hs⟩
  | cons op ops ih =>
    obtain ⟨h1, h2⟩ := applyDR_rank_good s op hs mid
    obtain ⟨h3, h4⟩ := ih (applyDR s op) h2
    exact ⟨le_trans h1 h3, h4⟩

/-- Case split on the tracking effect of `auto_check_read_status`: either
the tracking dict is untouched, or exactly the checked message gains the
recipient in its read-by set. -/
theorem auto_check_tracking_cases (s : WSState) (rws : Conn) (mid : String)
    (ts : Nat) :
    (auto_check_read_status s rws mid ts).message_tracking =
        s.message_tracking ∨
      ∃ info, alookup s.message_tracking mid = some info ∧
        (auto_check_read_status s rws mid ts).message_tracking =
          aset s.message_tracking mid
            ({ info with read_by := sadd info.read_by rws }) := by
  unfold auto_check_read_status
  split
  · exact Or.inl rfl
  · split
    · exact Or.inl rfl
    · split
      · exact Or.inl rfl
      · split
        · exact Or.inl rfl
        · split
          · exact Or.inl rfl
          · split
            · rename_i o1 lrt hlrt o2 info hinfo o3 rid hrid hne hread hts
              exact Or.inr ⟨info, hinfo, rfl⟩
            · exact Or.inl rfl

/-- In the direct-delivery path — the one where delivery tracking is
engaged — any connection newly appearing in a message's read-by set after
`deliver_to_user` is already in its delivered-to set, and the record status
is `delivered`. -/
theorem deliver_read_implies_delivered (sendOk : Conn → Bool) (s : WSState)
    (mid rcv : String) (w : Conn) (info0 info1 : MsgInfo)
    (h0 : alookup s.message_tracking mid = some info0)
    (h1 : alookup (deliver_to_user sendOk s mid rcv).message_tracking mid =
      some info1)
    (hw : w ∈ info1.read_by) (hw0 : w ∉ info0.read_by) :
    w ∈ info1.delivered_to ∧ info1.status = "delivered" := by
  unfold deliver_to_user at h1
  split at h1
  · rename_i hnone
    rw [h0] at hnone
    cases hnone
  · rename_i o1 info hinfo
    have hii : info = info0 := by
      rw [h0] at hinfo
      injection hinfo.symm
    subst hii
    split at h1
    · rw [h0] at h1
      injection h1 with h1e
      subst h1e
      exact absurd hw hw0
    · rename_i o2 rws hrws
      split at h1
      · dsimp only at h1
        set info2 : MsgInfo := { info with recipients := sadd info.recipients rws, delivered_to := sadd info.delivered_to rws, status := "delivered" } with hinfo2
        have hS1 : alookup (aset s.message_tracking mid info2) mid = some info2 := by
          rw [alookup_aset]
          simp
        split at h1
        · rcases auto_check_tracking_cases { s with message_tracking := aset s.message_tracking mid info2 } rws mid info.timestamp with hcase | ⟨infoX, hX, hcase⟩
          · rw [hcase] at h1
            dsimp only at h1
            rw [hS1] at h1
            injection h1 with h1e
            subst h1e
            exact absurd hw hw0
          · dsimp only at hX hcase
            rw [hS1] at hX
            have hXe : infoX = info2 := by injection hX.symm
            subst hXe
            rw [hcase] at h1
            rw [alookup_aset, if_pos rfl] at h1
            injection h1 with h1e
            subst h1e
            rcases (mem_sadd _ _ _).mp hw with hmem | hmem
            · exact absurd hmem hw0
            · constructor
              · rw [hmem]
                exact (mem_sadd _ _ _).mpr (Or.inr rfl)
              · rfl
        · dsimp only at h1
          rw [hS1] at h1
          injection h1 with h1e
          subst h1e
          exact absurd hw hw0
      · rw [h0] at h1
        injection h1 with h1e
        subst h1e
        exact absurd hw hw0

/-- Embeds `cleanup_connection` removes the `user_connections` entry of the user
the closing socket was authenticated as — whatever socket that entry
currently stores. -/
theorem cleanup_user_connections (sendOk : Conn → Bool) (s : WSState)
    (ws : Conn) (u : String)
    (hauth : alookup s.authenticated_users ws = some u) :
    alookup (cleanup_connection sendOk s ws).user_connections u = none := by
  unfold cleanup_connection broadcast_typing_event
  dsimp only
  split
  · rename_i hnone
    rw [hauth] at hnone
    cases hnone
  · rename_i o1 uid huid
    have he : uid = u := by
      rw [hauth] at huid
      injection huid.symm
    subst he
    split
    · show alookup (adel s.user_connections uid) uid = none
      rw [alookup_adel]
      simp
    · split
      · show alookup (adel s.user_connections uid) uid = none
        rw [alookup_adel]
        simp
      · split
        · show alookup (adel s.user_connections uid) uid = none
          rw [alookup_adel]
          simp
        · show alookup (adel s.user_connections uid) uid = none
          rw [alookup_adel]
          simp

/-! ## Claim theorems -/
/-- C1: for every sequence of `join_chat`, `leave_chat` and `disconnect`
operations on a fresh `ConnectionManager`, the forward index
`chat_participants` and the inverse index `user_chats` stay mutually
consistent: a user is in a chat's participant set exactly when the chat is
in the user's chat set. -/
theorem chat_indices_mutually_consistent (ops : List RegOp) (u c : String) :
    u ∈ partsOf (runReg ops) c ↔ c ∈ chatsOf (runReg ops) u :=
  invCM_foldRegOps ops initCM invCM_init u c

/-- C4 counterexample: `broadcast_to_chat` does not return the number of
successful sends.  Broadcasting to `room`, where exactly one member is
reachable, delivers to that one member, yet the function returns `None`
(there is no `return <value>` statement in its body), not `1`. -/
theorem broadcast_returns_none_not_count :
    (broadcast_to_chat (fun u => u != "bob") stC4 "room" none).1 = none ∧
    (broadcast_to_chat (fun u => u != "bob") stC4 "room" none).2.1 = ["alice"] ∧
    (broadcast_to_chat (fun u => u != "bob") stC4 "room" none).1 ≠
      some (broadcast_to_chat (fun u => u != "bob") stC4 "room" none).2.1.length := by
  refine ⟨by decide, by decide, by decide⟩

/-- C4 (amended): `broadcast_to_chat` attempts delivery to every snapshot
member of the chat except the excluded user; the payload reaches exactly
the members with a live, working connection; every member whose send
failed is no longer a participant of the chat afterwards; the loop never
aborts early and the function raises nothing, returning `None` rather than
a sent count. -/
theorem broadcast_to_chat_spec (sendOk : String → Bool) (s : CMState)
    (chat : String) (excl : Option String) :
    (broadcast_to_chat sendOk s chat excl).1 = none ∧
    (broadcast_to_chat sendOk s chat excl).2.1 =
      (broadcastTargets s chat excl).filter
        (fun u => (alookup s.active_connections u).isSome && sendOk u) ∧
    ∀ u ∈ broadcastTargets s chat excl,
      ((alookup s.active_connections u).isSome && sendOk u) = false →
        u ∉ partsOf (broadcast_to_chat sendOk s chat excl).2.2 chat := by
  unfold broadcast_to_chat
  by_cases hE : (broadcastTargets s chat excl).isEmpty
  · rw [if_pos hE]
    refine ⟨rfl, ?_, ?_⟩
    · rw [List.isEmpty_iff.mp hE]
      rfl
    · intro u hu
      rw [List.isEmpty_iff.mp hE] at hu
      cases hu
  · rw [if_neg hE]
    obtain ⟨hsent, hdisc⟩ := bcastLoop_spec sendOk (broadcastTargets s chat excl) s
    refine ⟨rfl, hsent, ?_⟩
    intro u hu hfail
    have hds : u ∈ (bcastLoop sendOk (broadcastTargets s chat excl) s).2.1 := by
      rw [hdisc]
      refine List.mem_filter.mpr ⟨hu, ?_⟩
      rw [hfail]
      rfl
    exact leaveUsersFold_not_mem chat _ _ u hds

/-- Witness for C4: in `stC4`, the member `bob` (whose transport fails) is
evicted from the chat by the broadcast. -/
theorem broadcast_to_chat_spec_witness :
    "bob" ∈ broadcastTargets stC4 "room" none ∧
    ((alookup stC4.active_connections "bob").isSome && (fun u => u != "bob") "bob")
      = false ∧
    "bob" ∉ partsOf (broadcast_to_chat (fun u => u != "bob") stC4 "room" none).2.2
      "room" :=
  ⟨by decide, by decide,
   (broadcast_to_chat_spec (fun u => u != "bob") stC4 "room" none).2.2 "bob"
     (by decide) (by decide)⟩

/-- C7: `get_typing_users` returns only users whose typing timestamp is at
most `expiry_seconds` old at the time of the call; every member of the
chat's typing set whose timestamp is older is dropped from both the typing
set and the timestamp map as a side effect; an immediately repeated call at
the same time returns the same list and leaves the state untouched. -/
theorem get_typing_users_expiry_spec (s : CMState) (chat : String)
    (e now : Nat) :
    (∀ u ∈ (get_typing_users s chat e now).1,
       ∃ t, tsOf s u chat = some t ∧ now - t ≤ e) ∧
    (∀ u, u ∈ typingOf s chat → typingStale s chat e now u = true →
       u ∉ typingOf (get_typing_users s chat e now).2 chat ∧
         tsOf (get_typing_users s chat e now).2 u chat = none) ∧
    get_typing_users (get_typing_users s chat e now).2 chat e now =
      ((get_typing_users s chat e now).1, (get_typing_users s chat e now).2) :=
  ⟨gtu_fresh_only s chat e now, gtu_removes_stale s chat e now,
   gtu_idempotent s chat e now⟩

/-- Witness for C7 at `stC7`: the fresh user is returned with a fresh
timestamp, the stale user is purged from both structures. -/
theorem get_typing_users_expiry_spec_witness :
    ("u1" ∈ (get_typing_users stC7 "c" 5 10).1 ∧
      ∃ t, tsOf stC7 "u1" "c" = some t ∧ 10 - t ≤ 5) ∧
    (("u2" ∈ typingOf stC7 "c" ∧ typingStale stC7 "c" 5 10 "u2" = true) ∧
      ("u2" ∉ typingOf (get_typing_users stC7 "c" 5 10).2 "c" ∧
        tsOf (get_typing_users stC7 "c" 5 10).2 "u2" "c" = none)) ∧
    get_typing_users (get_typing_users stC7 "c" 5 10).2 "c" 5 10 =
      ((get_typing_users stC7 "c" 5 10).1, (get_typing_users stC7 "c" 5 10).2) :=
  ⟨⟨by decide, (get_typing_users_expiry_spec stC7 "c" 5 10).1 "u1" (by decide)⟩,
   ⟨⟨by decide, by decide⟩,
    (get_typing_users_expiry_spec stC7 "c" 5 10).2.1 "u2" (by decide) (by decide)⟩,
   (get_typing_users_expiry_spec stC7 "c" 5 10).2.2⟩

/-- C5: for a tracked message with a nonempty id (the only kind
`handle_send_chat` creates), a read receipt sent over the authenticated
connection that originally sent the message is always refused with the 403
`Cannot mark own message as read` reply and the state — in particular the
read-by set — is left completely unchanged. -/
theorem handle_message_read_self_rejected (s : WSState) (ws : Conn)
    (m uid : String) (info : MsgInfo)
    (hauth : alookup s.authenticated_users ws = some uid)
    (hm : m ≠ "")
    (htrack : alookup s.message_tracking m = some info)
    (hself : ws = info.sender_ws) :
    handle_message_read s ws (some m) =
      (s, [(ws, .errReply 403 "Cannot mark own message as read")]) := by
  unfold handle_message_read
  split
  · rename_i hnone
    rw [hauth] at hnone
    cases hnone
  · dsimp only
    rw [if_neg hm]
    split
    · rename_i hnone
      rw [htrack] at hnone
      cases hnone
    · rename_i o1 info2 hinfo2
      have he : info2 = info := by
        rw [htrack] at hinfo2
        injection hinfo2.symm
      subst he
      rw [if_pos hself]

/-- Witness for C5 at `stC5`. -/
theorem handle_message_read_self_rejected_witness :
    handle_message_read stC5 1 (some "m1") =
      (stC5, [(1, .errReply 403 "Cannot mark own message as read")]) :=
  handle_message_read_self_rejected stC5 1 "m1" "alice"
    { sender_ws := 1, sender_id := "alice", receiver_id := some "bob",
      status := "sent", timestamp := 5, recipients := [],
      delivered_to := [], read_by := [] }
    (by decide) (by decide) (by decide) (by decide)

/-- C6: starting from any state whose tracked statuses are among the two
strings the source ever assigns, the per-message status rank along the
sent, delivered, read progression never decreases under any sequence of
delivery/read operations (in particular it never falls back from a higher
status); and in the direct-delivery path — where delivery tracking is
engaged — a recipient newly recorded as having read a message is already
in its delivered-to set with the record status at `delivered`. -/
theorem message_status_monotone (s : WSState) (hs : GoodStatuses s) :
    (∀ (ops extra : List DROp) (mid : String),
       statusRank (statusOf (runDR ops s) mid) ≤
         statusRank (statusOf (runDR (ops ++ extra) s) mid)) ∧
    (∀ (sendOk : Conn → Bool) (mid rcv : String) (w : Conn)
       (info0 info1 : MsgInfo),
       alookup s.message_tracking mid = some info0 →
       alookup (deliver_to_user sendOk s mid rcv).message_tracking mid =
         some info1 →
       w ∈ info1.read_by → w ∉ info0.read_by →
       w ∈ info1.delivered_to ∧ info1.status = "delivered") := by
  constructor
  · intro ops extra mid
    have h1 := runDR_rank_good ops s hs mid
    have h2 := runDR_rank_good extra (runDR ops s) h1.2 mid
    calc statusRank (statusOf (runDR ops s) mid)
        ≤ statusRank (statusOf (runDR extra (runDR ops s)) mid) := h2.1
      _ = statusRank (statusOf (runDR (ops ++ extra) s) mid) := by
          rw [runDR, runDR, runDR, List.foldl_append]
  · intro sendOk mid rcv w i0 i1 h0 h1 hw hw0
    exact deliver_read_implies_delivered sendOk s mid rcv w i0 i1 h0 h1 hw hw0

/-- Witness for C6 at `stC6`: one delivery step never lowers the rank, and
the auto-read recipient is in the delivered-to set with status
`delivered`. -/
theorem message_status_monotone_witness :
    GoodStatuses stC6 ∧
    statusRank (statusOf (runDR [] stC6) "m") ≤
      statusRank (statusOf
        (runDR ([] ++ [DROp.opDeliver (fun _ => true) "m" "b"]) stC6) "m") ∧
    (2 ∈ stC6delivered.delivered_to ∧ stC6delivered.status = "delivered") :=
  ⟨by decide,
   (message_status_monotone stC6 (by decide)).1 []
     [DROp.opDeliver (fun _ => true) "m" "b"] "m",
   (message_status_monotone stC6 (by decide)).2 (fun _ => true) "m" "b" 2
     { sender_ws := 1, sender_id := "a", receiver_id := some "b",
       status := "sent", timestamp := 5, recipients := [],
       delivered_to := [], read_by := [] }
     stC6delivered (by decide) (by decide) (by decide) (by decide)⟩

/-- C8: a frame that does not end with the literal suffix is rejected by
both decoders with their missing-suffix error naming the received text, and
the JSON parser is never consulted: the outcome is the same for every
conceivable parser. -/
theorem missing_suffix_rejected_without_parsing {ε ε2 : Type} (raw : String)
    (h : str_endswith raw SUFFIX = false)
    (d1 : String → Option ε) (d2 : String → Option ε2)
    (isDict : ε2 → Bool) (hasName : ε2 → Bool) (defData : ε2 → ε2) :
    parse_event d1 raw = .invalidSuffix raw ∧
    parse_event_with_suffix d2 isDict hasName defData raw =
      .invalidFormat raw := by
  constructor
  · unfold parse_event
    rw [h]
    rfl
  · unfold parse_event_with_suffix
    rw [h]
    rfl

/-- Witness for C8 on the frame `hello`, which lacks the suffix. -/
theorem missing_suffix_rejected_witness :
    str_endswith "hello" SUFFIX = false ∧
    parse_event (fun _ => some 0) "hello" = .invalidSuffix "hello" ∧
    parse_event_with_suffix (fun _ => some 0) (fun _ => true) (fun _ => true)
      id "hello" = .invalidFormat "hello" :=
  ⟨by decide,
   (missing_suffix_rejected_without_parsing "hello" (by decide)
     (fun _ => some 0) (fun _ => some 0) (fun _ => true) (fun _ => true) id).1,
   (missing_suffix_rejected_without_parsing "hello" (by decide)
     (fun _ => some 0) (fun _ => some 0) (fun _ => true) (fun _ => true) id).2⟩

/-- C2 (failing-input evaluation): after the legacy cleanup the socket is
gone from `connected_clients` and de-authenticated, yet the user is still
a member of the typing set of chat `A` — `cleanup_connection` only clears
the one chat recorded in `user_typing_in`, which `handle_typing_start`
overwrote when the user started typing in `B`. -/
theorem cleanup_leaves_stale_typing :
    7 ∉ stC2.connected_clients ∧
    alookup stC2.authenticated_users 7 = none ∧
    "udo" ∈ dget stC2.typing_users "A" ∧
    "udo" ∉ dget stC2.typing_users "B" := by
  refine ⟨by decide, by decide, by decide, by decide⟩

/-- C9 (failing-input evaluation): after the second `typing_start` the user
appears in the typing sets of both chats at once — the handler overwrites
`user_typing_in` but never removes the user from the previous chat's
typing set, so the at-most-one-chat invariant the single-valued
`user_typing_in` map presumes is violated. -/
theorem typing_start_leaves_user_in_two_chats :
    "uma" ∈ dget stC9.typing_users "roomA" ∧
    "uma" ∈ dget stC9.typing_users "roomB" ∧
    alookup stC9.user_typing_in "uma" = some "roomB" := by
  refine ⟨by decide, by decide, by decide⟩

/-- C3 (failing-input evaluation): for an admin token and a nonempty
capability list, `validate_user_permissions` returns `(False, ... )` — the
missing `verify_token` import makes its first statement raise, and even
with the import the subject-only return value of the active `verify_token`
would raise on the attribute access, with the same result.  The intended
logic of its lines 128-137, run on the full payload, grants the admin. -/
theorem validate_user_permissions_always_denies :
    validate_user_permissions (some adminPayload) (some ["join_chats"]) =
      (false, emptyPayload) ∧
    validate_user_permissions_with_import (some adminPayload)
      (some ["join_chats"]) = (false, emptyPayload) ∧
    validate_user_permissions_intended (some adminPayload)
      (some ["join_chats"]) = (true, adminPayload) := by
  refine ⟨by decide, by decide, by decide⟩

/-- C10: teardown is keyed by user identifier.  In the registry variant,
`disconnect(u)` always deletes the `active_connections` entry under key
`u` — whatever socket the entry currently stores — and, when the forward
index is covered by the inverse index for `u`, leaves `u` in no chat's
participant set.  In the legacy variant, `cleanup_connection(ws)` for a
socket authenticated as `u` deletes `user_connections[u]` even when that
entry was re-registered by a newer socket of a duplicate login. -/
theorem teardown_keyed_by_user :
    (∀ (s : CMState) (u : String),
       alookup (CM_disconnect s u).active_connections u = none ∧
       ((∀ p ∈ s.chat_participants, u ∈ p.2 → p.1 ∈ chatsOf s u) →
         ∀ c, u ∉ partsOf (CM_disconnect s u) c)) ∧
    (∀ (sendOk : Conn → Bool) (s : WSState) (ws : Conn) (u : String),
       alookup s.authenticated_users ws = some u →
       alookup (cleanup_connection sendOk s ws).user_connections u = none) := by
  constructor
  · intro s u
    exact ⟨disconnect_active_none s u,
      fun h c => disconnect_not_participant s u h c⟩
  · intro sendOk s ws u hauth
    exact cleanup_user_connections sendOk s ws u hauth

/-- Witness for C10: disconnecting `u1` removes the replacement socket's
registry entry and the chat membership; in the legacy variant, cleaning up
the stale socket 11 removes the `user_connections` entry registered by the
still-connected socket 12. -/
theorem teardown_keyed_by_user_witness :
    ((∀ p ∈ stC10reg.chat_participants, "u1" ∈ p.2 → p.1 ∈ chatsOf stC10reg "u1") ∧
      alookup (CM_disconnect stC10reg "u1").active_connections "u1" = none ∧
      "u1" ∉ partsOf (CM_disconnect stC10reg "u1") "c7") ∧
    (alookup stC10ws.authenticated_users 11 = some "dup" ∧
      alookup stC10ws.user_connections "dup" = some 12 ∧
      alookup (cleanup_connection (fun _ => true) stC10ws 11).user_connections
        "dup" = none ∧
      12 ∈ (cleanup_connection (fun _ => true) stC10ws 11).connected_clients) :=
  ⟨⟨by decide, (teardown_keyed_by_user.1 stC10reg "u1").1,
    (teardown_keyed_by_user.1 stC10reg "u1").2 (by decide) "c7"⟩,
   ⟨by decide, by decide,
    teardown_keyed_by_user.2 (fun _ => true) stC10ws 11 "dup" (by decide),
    by decide⟩⟩
